import Mathlib

/-!
Shallow embedding of the blockchain payment reconciliation core of
matters-server: the `PayToByBlockchainQueue` class (pay-to verification job,
curation event synchronizer, and the shared state transition helper), together
with the small utility functions it uses (`ignoreCaseMatch`, `isValidUri`,
`extractCid`, `toTokenBaseUnit`, `fromTokenBaseUnit`).

Modelling conventions:
- Database tables are association lists of rows; row ids are `Nat`.
- JavaScript numbers used for block heights are modelled as `Int`
  (the source computes `height - confirmations`, which can be negative).
- On-chain token amounts (`uint256` big numbers) and ledger amounts
  (decimal strings) are both modelled as `Rat`; the string comparison
  `event.args.amount.toString() === toTokenBaseUnit(...)` of the source is
  modelled as exact rational equality, with `parseUnits` as multiplication
  by `10 ^ decimals` and `formatUnits` as division.
- An uncaught JavaScript exception (for example a TypeError from reading a
  field of a missing row, or a rethrown store error) is modelled by a
  `crashed` flag on the result: committed writes before the throw are kept,
  everything after the throw does not run, and the job framework treats the
  job as failed but not discarded.
- The persistence service (`PaymentService` / `AtomService` / `UserService`)
  is not part of the given sources; its narrow interface is modelled from the
  spec where noted in doc comments.
-/

namespace MattersPay

/-- Ledger transaction states (`TRANSACTION_STATE` in the source). -/
inductive TRANSACTION_STATE
  | pending
  | succeeded
  | failed
  | canceled
  deriving DecidableEq, Repr

/-- Blockchain transaction states (`BLOCKCHAIN_TRANSACTION_STATE`). -/
inductive BLOCKCHAIN_TRANSACTION_STATE
  | pending
  | succeeded
  | reverted
  deriving DecidableEq, Repr

/-- Transaction remark codes; only `INVALID` is used by this core. -/
inductive TRANSACTION_REMARK
  | INVALID
  deriving DecidableEq, Repr

/-- Payment providers (`PAYMENT_PROVIDER`). -/
inductive PAYMENT_PROVIDER
  | blockchain
  | stripe
  | likecoin
  deriving DecidableEq, Repr

/-- Transaction purposes; only `donation` is used by this core. -/
inductive TRANSACTION_PURPOSE
  | donation
  deriving DecidableEq, Repr

/-- Payment currencies used by this core. -/
inductive PAYMENT_CURRENCY
  | USDT
  | HKD
  | LIKE
  deriving DecidableEq, Repr

/-- ASCII lower casing, the model of `String.prototype.toLowerCase`; written
over the character list so it evaluates inside the kernel. -/
def jsToLower (s : String) : String :=
  ⟨s.data.map Char.toLower⟩

/-- Model of the source helper `ignoreCaseMatch`. -/
def ignoreCaseMatch (a b : String) : Bool :=
  jsToLower a == jsToLower b

/-- Whether the first list leads the second one. -/
def charsLead : List Char → List Char → Bool
  | [], _ => true
  | _ :: _, [] => false
  | p :: ps, c :: cs => p == c && charsLead ps cs

/-- Model of the source helper `isValidUri`: the regex test for a uri that
opens with the ipfs scheme. -/
def isValidUri (uri : String) : Bool :=
  charsLead "ipfs://".data uri.data

/-- Removal of the first occurrence of `pat`, the model of the JavaScript
`String.prototype.replace(pat, rep)` with an empty replacement string. -/
def replaceFirstAux (pat : List Char) : List Char → List Char
  | [] => []
  | c :: cs =>
    if charsLead pat (c :: cs) then (c :: cs).drop pat.length
    else c :: replaceFirstAux pat cs

/-- Model of the source helper `extractCid`. -/
def extractCid (uri : String) : String :=
  ⟨replaceFirstAux "ipfs://".data uri.data⟩

/-- Model of `toTokenBaseUnit` (`ethers.utils.parseUnits`): the human
readable amount scaled to base units, that is `amount * 10 ^ decimals`,
written through `mkRat` so that it evaluates inside the kernel; the lemma
`toTokenBaseUnit_eq` below proves it equal to the scaling formula. -/
def toTokenBaseUnit (amount : Rat) (decimals : Nat) : Rat :=
  mkRat (amount.num * (((10 : Nat) ^ decimals : Nat) : Int)) amount.den

/-- Model of `fromTokenBaseUnit` (`ethers.utils.formatUnits`): the base unit
amount scaled down to a human readable amount, that is
`amount / 10 ^ decimals`; the lemma `fromTokenBaseUnit_eq` below proves it
equal to the scaling formula. -/
def fromTokenBaseUnit (amount : Rat) (decimals : Nat) : Rat :=
  mkRat amount.num (amount.den * (10 : Nat) ^ decimals)

/-- JavaScript falsiness for an optional string value (`null`, `undefined`
and the empty string are falsy). -/
def jsFalsy (s : Option String) : Bool :=
  match s with
  | none => true
  | some str => str == ""

/-- A row of the `transaction` table (the LedgerTransaction of the spec). -/
structure Transaction where
  id : Nat
  state : TRANSACTION_STATE
  remark : Option TRANSACTION_REMARK
  purpose : TRANSACTION_PURPOSE
  currency : PAYMENT_CURRENCY
  provider : PAYMENT_PROVIDER
  providerTxId : Option Nat
  senderId : Nat
  recipientId : Nat
  targetId : Nat
  amount : Rat
  deriving DecidableEq, Repr

/-- A row of the `blockchain_transaction` table.  The `chain` column is
constant (`Polygon`) in this core and is omitted, so the natural key of the
table is `txHash`. -/
structure BlockchainTransaction where
  id : Nat
  txHash : String
  state : BLOCKCHAIN_TRANSACTION_STATE
  transactionId : Option Nat
  deriving DecidableEq, Repr

/-- Decoded arguments of a `Curation` event or log. -/
structure CurationArgs where
  curator : String
  creator : String
  token : String
  uri : String
  amount : Rat
  deriving DecidableEq, Repr

/-- An event returned by `queryFilter` on the curation contract. -/
structure CurationEvent where
  blockNumber : Int
  transactionHash : String
  removed : Bool
  args : CurationArgs
  deriving DecidableEq, Repr

/-- A receipt log.  The source decodes a log with the contract interface only
after checking its first topic; the decoded view is carried in `args`. -/
structure Log where
  address : String
  topics : List String
  args : CurationArgs
  deriving DecidableEq, Repr

/-- A transaction receipt as returned by `getTransactionReceipt`. -/
structure TransactionReceipt where
  status : Nat
  logs : List Log
  deriving DecidableEq, Repr

/-- A row of the `user` table, reduced to the columns this core reads. -/
structure User where
  id : Nat
  ethAddress : Option String
  deriving DecidableEq, Repr

/-- A row of the `article` table, reduced to the columns this core reads. -/
structure Article where
  id : Nat
  authorId : Nat
  dataHash : Option String
  deriving DecidableEq, Repr

/-- A row of the `blockchain_curation_event` mirror table. -/
structure CurationEventRow where
  blockchainTransactionId : Nat
  contractAddress : String
  curatorAddress : String
  creatorAddress : String
  tokenAddress : String
  amount : Rat
  uri : String
  deriving DecidableEq, Repr

/-- The database state touched by this core: the ledger transaction table,
the blockchain transaction table, the event mirror table, and the single
`blockchain_sync_record` cursor row for the fixed (chainId, contractAddress)
pair.  The two id counters model sequence-generated primary keys. -/
structure DB where
  txs : List Transaction
  blockchainTxs : List BlockchainTransaction
  curationEvents : List CurationEventRow
  syncRecord : Option Int
  nextTxId : Nat
  nextBlockchainTxId : Nat
  deriving DecidableEq, Repr

/-- Environment constants read by the queue: the curation contract address
(lower cased on load in the source), the USDT contract address and decimals,
and the Polygon safe confirmation depth. -/
structure ChainEnv where
  contractAddress : String
  USDTContractAddress : String
  USDTContractDecimals : Nat
  safeConfirms : Int
  deriving DecidableEq, Repr

/-- The `Curation(address,address,address,string,uint256)` topic constant of
the source. -/
def curationTopic : String :=
  "0xc2e41b3d49bbccbac6ceb142bad6119608adf4f1ee1ca5cc6fc332e0ca2fc602"

/-- The platform data this core reads but never writes: users and articles. -/
structure Platform where
  users : List User
  articles : List Article
  deriving DecidableEq, Repr

/-- Modelled from the spec: `UserService.baseFindById` used by the pay-to
handler; the user service is not part of the given sources. -/
def Platform.findUserById (p : Platform) (id : Nat) : Option User :=
  p.users.find? (fun u => u.id == id)

/-- Modelled from the spec: `UserService.findByEthAddress`, which resolves a
wallet address to a platform user; the user service is not part of the given
sources.  Addresses compare case insensitively. -/
def Platform.findByEthAddress (p : Platform) (addr : String) : Option User :=
  p.users.find? (fun u => u.ethAddress.map jsToLower == some (jsToLower addr))

/-- Modelled from the spec: `ArticleService.baseFind` filtered by author and
content hash; the article service is not part of the given sources. -/
def Platform.findArticles (p : Platform) (authorId : Nat) (cid : String) : List Article :=
  p.articles.filter (fun a => a.authorId == authorId && a.dataHash == some cid)

/-- The chain client receipt lookup, modelled as an association list from
transaction hash to receipt; a missing entry is a not-yet-mined transaction. -/
def getTransactionReceipt (receipts : List (String × TransactionReceipt)) (h : String) :
    Option TransactionReceipt :=
  (receipts.find? (fun r => r.1 == h)).map (fun r => r.2)

/-- Find a ledger transaction row by id (`baseFindById` on `transaction`). -/
def DB.findTransaction (db : DB) (id : Nat) : Option Transaction :=
  db.txs.find? (fun t => t.id == id)

/-- Modelled from the spec: `PaymentService.findBlockchainTransactionById`;
the payment service is not part of the given sources. -/
def DB.findBlockchainTransactionById (db : DB) (id : Nat) : Option BlockchainTransaction :=
  db.blockchainTxs.find? (fun b => b.id == id)

/-- Lookup of the blockchain transaction row for a tx hash (the chain column
is constant in this core). -/
def DB.findBlockchainTransactionByHash (db : DB) (h : String) : Option BlockchainTransaction :=
  db.blockchainTxs.find? (fun b => b.txHash == h)

/-- Modelled from the spec: `PaymentService.markTransactionStateAs` updates
the state of one ledger transaction row, together with the remark when one is
given; the payment service is not part of the given sources. -/
def markTransactionStateAs (db : DB) (id : Nat) (state : TRANSACTION_STATE)
    (remark : Option TRANSACTION_REMARK) : DB :=
  { db with
    txs := db.txs.map (fun t =>
      if t.id == id then
        { t with state := state, remark := match remark with
                                           | some r => some r
                                           | none => t.remark }
      else t) }

/-- Modelled from the spec: `PaymentService.markBlockchainTransactionStateAs`
updates the state of one blockchain transaction row. -/
def markBlockchainTransactionStateAs (db : DB) (id : Nat)
    (state : BLOCKCHAIN_TRANSACTION_STATE) : DB :=
  { db with
    blockchainTxs := db.blockchainTxs.map (fun b =>
      if b.id == id then { b with state := state } else b) }

/-- Modelled from the spec: the `baseUpdate` call that repoints the
`transactionId` link of a blockchain transaction row. -/
def repointBlockchainTransaction (db : DB) (bcId : Nat) (txId : Nat) : DB :=
  { db with
    blockchainTxs := db.blockchainTxs.map (fun b =>
      if b.id == bcId then { b with transactionId := some txId } else b) }

/-- Column values for `PaymentService.createTransaction`. -/
structure NewTransaction where
  amount : Rat
  state : TRANSACTION_STATE
  purpose : TRANSACTION_PURPOSE
  currency : PAYMENT_CURRENCY
  provider : PAYMENT_PROVIDER
  providerTxId : Option Nat
  recipientId : Nat
  senderId : Nat
  targetId : Nat
  deriving DecidableEq, Repr

/-- Modelled from the spec: `PaymentService.createTransaction` inserts a new
ledger transaction row with a fresh sequence id. -/
def createTransaction (db : DB) (t : NewTransaction) : Transaction × DB :=
  let tx : Transaction :=
    { id := db.nextTxId
      state := t.state
      remark := none
      purpose := t.purpose
      currency := t.currency
      provider := t.provider
      providerTxId := t.providerTxId
      senderId := t.senderId
      recipientId := t.recipientId
      targetId := t.targetId
      amount := t.amount }
  (tx, { db with txs := db.txs ++ [tx], nextTxId := db.nextTxId + 1 })

/-- A committed write performed by the core, recorded for reasoning about
which paths write terminal ledger states and how.  A `pairedUpdate` is the
shared state transition helper `updateTxAndBlockchainTxState`; the other
constructors are direct writes outside that helper. -/
inductive WriteOp
  | pairedUpdate (txId : Nat) (txState : TRANSACTION_STATE)
      (remark : Option TRANSACTION_REMARK) (bcId : Nat)
      (bcState : BLOCKCHAIN_TRANSACTION_STATE)
  | loneMarkTx (txId : Nat) (txState : TRANSACTION_STATE)
      (remark : Option TRANSACTION_REMARK)
  | createLedgerTx (txId : Nat) (txState : TRANSACTION_STATE)
  | createBcTx (bcId : Nat)
  | repointBcTx (bcId : Nat) (txId : Nat)
  | batchUpsertEvents (count : Nat)
  | writeSyncRecord (blockNumber : Int)
  deriving DecidableEq, Repr

/-- A terminal ledger state: `succeeded`, `failed` or `canceled`. -/
def TRANSACTION_STATE.isTerminal : TRANSACTION_STATE → Bool
  | .pending => false
  | .succeeded => true
  | .failed => true
  | .canceled => true

/-- A write that puts a ledger transaction into a terminal state outside the
shared state transition helper. -/
def WriteOp.isUnpairedTerminal : WriteOp → Bool
  | .loneMarkTx _ s _ => s.isTerminal
  | .createLedgerTx _ s => s.isTerminal
  | _ => false

/-- The shared state transition helper `updateTxAndBlockchainTxState`: one
store transaction that updates the ledger transaction row and the blockchain
transaction row together. -/
def updateTxAndBlockchainTxState (db : DB) (txId : Nat) (txState : TRANSACTION_STATE)
    (txRemark : Option TRANSACTION_REMARK) (bcId : Nat)
    (bcState : BLOCKCHAIN_TRANSACTION_STATE) : DB × WriteOp :=
  (markBlockchainTransactionStateAs
     (markTransactionStateAs db txId txState txRemark) bcId bcState,
   .pairedUpdate txId txState txRemark bcId bcState)

/-- The source helper `failBothTxAndBlockchainTx`. -/
def failBothTxAndBlockchainTx (db : DB) (txId bcId : Nat) : DB × WriteOp :=
  updateTxAndBlockchainTxState db txId .failed none bcId .reverted

/-- The source helper `succeedBothTxAndBlockchainTx`. -/
def succeedBothTxAndBlockchainTx (db : DB) (txId bcId : Nat) : DB × WriteOp :=
  updateTxAndBlockchainTxState db txId .succeeded none bcId .succeeded

/-- The source helper `resetBothTxAndBlockchainTx`. -/
def resetBothTxAndBlockchainTx (db : DB) (txId bcId : Nat) : DB × WriteOp :=
  updateTxAndBlockchainTxState db txId .pending none bcId .pending

/-- Modelled from the spec: `PaymentService.findOrCreateBlockchainTransaction`
returns the existing row for the hash, or inserts a fresh unlinked row whose
state is `defaultState`; the payment service is not part of the given
sources.  The source calls it with an explicit `succeeded` default on the
event addition path and with no default on the reorg removal path; on the
latter the created row gets the column default, modelled as `pending` (the
initial state of the spec state machine). -/
def findOrCreateBlockchainTransaction (db : DB) (txHash : String)
    (defaultState : BLOCKCHAIN_TRANSACTION_STATE) :
    BlockchainTransaction × DB × List WriteOp :=
  match db.findBlockchainTransactionByHash txHash with
  | some bc => (bc, db, [])
  | none =>
    let bc : BlockchainTransaction :=
      { id := db.nextBlockchainTxId
        txHash := txHash
        state := defaultState
        transactionId := none }
    (bc,
     { db with
       blockchainTxs := db.blockchainTxs ++ [bc]
       nextBlockchainTxId := db.nextBlockchainTxId + 1 },
     [.createBcTx bc.id])

/-- The expected transfer parameters the pay-to handler decodes from ledger
data before scanning the receipt logs. -/
structure ExpectedParams where
  curatorAddress : Option String
  creatorAddress : Option String
  cid : Option String
  tokenAddress : String
  amount : Rat
  decimals : Nat
  deriving DecidableEq, Repr

/-- The expected parameters built by `handlePayTo` from the ledger
transaction, its sender and recipient users, and the target article. -/
def expectedParamsOf (env : ChainEnv) (tx : Transaction) (sender recipient : User)
    (articleDb : Article) : ExpectedParams :=
  { curatorAddress := sender.ethAddress
    creatorAddress := recipient.ethAddress
    cid := articleDb.dataHash
    tokenAddress := env.USDTContractAddress
    amount := tx.amount
    decimals := env.USDTContractDecimals }

/-- The source method `containMatchedEvent`: whether some receipt log is a
curation event of the watched contract whose decoded arguments match the
expected transfer parameters. -/
def containMatchedEvent (env : ChainEnv) (logs : List Log) (p : ExpectedParams) : Bool :=
  if logs.isEmpty then
    false
  else if jsFalsy p.curatorAddress || jsFalsy p.creatorAddress then
    false
  else
    logs.any (fun log =>
      jsToLower log.address == env.contractAddress
      && log.topics.head? == some curationTopic
      && (match p.curatorAddress, p.creatorAddress with
          | some curatorAddress, some creatorAddress =>
            ignoreCaseMatch log.args.curator curatorAddress
            && ignoreCaseMatch log.args.creator creatorAddress
            && ignoreCaseMatch log.args.token p.tokenAddress
            && log.args.amount == toTokenBaseUnit p.amount p.decimals
            && isValidUri log.args.uri
            && some (extractCid log.args.uri) == p.cid
          | _, _ => false))

/-- How a queue job attempt ends: `done` is a normal return, `discarded` is
`job.discard()` followed by a thrown error (no retry), `retry` is a thrown
error without discard (the queue retries with backoff). -/
inductive JobOutcome
  | done
  | discarded
  | retry
  deriving DecidableEq, Repr

/-- Result of one pay-to verification attempt. -/
structure PayToResult where
  db : DB
  trace : List WriteOp
  outcome : JobOutcome
  deriving DecidableEq, Repr

/-- The pay-to handler `handlePayTo`: one verification attempt for the ledger
transaction `txId`.  Notification and cache side effects of the success path
are outside the modelled state. -/
def handlePayTo (env : ChainEnv) (plat : Platform)
    (receipts : List (String × TransactionReceipt)) (db : DB) (txId : Nat) :
    PayToResult :=
  match db.findTransaction txId with
  | none => ⟨db, [], .discarded⟩
  | some tx =>
    if tx.provider != PAYMENT_PROVIDER.blockchain then
      ⟨db, [], .discarded⟩
    else
      match tx.providerTxId.bind db.findBlockchainTransactionById with
      | none => ⟨db, [], .discarded⟩
      | some blockchainTx =>
        match getTransactionReceipt receipts blockchainTx.txHash with
        | none => ⟨db, [], .retry⟩
        | some txReceipt =>
          if txReceipt.status == 0 then
            let r := failBothTxAndBlockchainTx db txId blockchainTx.id
            ⟨r.1, [r.2], .done⟩
          else
            match plat.findUserById tx.recipientId, plat.findUserById tx.senderId,
                  plat.articles.find? (fun a => a.id == tx.targetId) with
            | some recipient, some sender, some articleDb =>
              if !(containMatchedEvent env txReceipt.logs
                     (expectedParamsOf env tx sender recipient articleDb)) then
                let r := updateTxAndBlockchainTxState db txId .canceled
                           (some .INVALID) blockchainTx.id .succeeded
                ⟨r.1, [r.2], .done⟩
              else
                let r := succeedBothTxAndBlockchainTx db txId blockchainTx.id
                ⟨r.1, [r.2], .done⟩
            | _, _, _ =>
              -- a missing row makes the source read a field of null: the
              -- thrown TypeError fails the attempt without discarding it
              ⟨db, [], .retry⟩

/-- Result of processing one curation event inside `syncCurationEvents`:
the database after the committed writes, the mirror rows pushed onto
`eventsToBatchCreate`, the write trace, and whether the step threw. -/
structure EventStepResult where
  db : DB
  rows : List CurationEventRow
  trace : List WriteOp
  crashed : Bool
  deriving DecidableEq, Repr

/-- Failure injection for the multi-row store transactions of the addition
reconciliation: which of the cancel / create / repoint steps throws.  When a
step throws, the store transaction rolls back and the error is rethrown. -/
structure FailPlan where
  failMark : Bool
  failCreate : Bool
  failRepoint : Bool
  deriving DecidableEq, Repr

/-- The failure plan on which every store call succeeds. -/
def noFail : FailPlan := ⟨false, false, false⟩

/-- The mirror row decoded from an addition event, as built by the addition
branch of `syncCurationEvents` (addresses lower cased). -/
def curationRowOf (env : ChainEnv) (event : CurationEvent) (bcId : Nat) : CurationEventRow :=
  { blockchainTransactionId := bcId
    contractAddress := env.contractAddress
    curatorAddress := jsToLower event.args.curator
    creatorAddress := jsToLower event.args.creator
    tokenAddress := jsToLower event.args.token
    amount := event.args.amount
    uri := event.args.uri }

/-- The chain of guards by which the addition branch decides that a mirrored
event is an in-platform donation: the token is the configured USDT contract,
the uri is a recognized scheme, curator and creator resolve to platform
users, and the content id resolves to an article of the creator.  Each
failing guard is a `continue` in the source. -/
def decodeDonation (env : ChainEnv) (plat : Platform) (row : CurationEventRow) :
    Option (User × User × Article) :=
  if row.tokenAddress != env.USDTContractAddress then
    none
  else if !(isValidUri row.uri) then
    none
  else
    match plat.findByEthAddress row.curatorAddress with
    | none => none
    | some curatorUser =>
      match plat.findByEthAddress row.creatorAddress with
      | none => none
      | some creatorUser =>
        match plat.findArticles creatorUser.id (extractCid row.uri) with
        | [] => none
        | article :: _ => some (curatorUser, creatorUser, article)

/-- The addition (non removed) branch of the `syncCurationEvents` loop body:
mirror the event, then reconcile it with the ledger when it is an
in-platform donation. -/
def processAddition (env : ChainEnv) (plat : Platform) (db : DB)
    (event : CurationEvent) (plan : FailPlan) : EventStepResult :=
  let fc := findOrCreateBlockchainTransaction db event.transactionHash .succeeded
  let blockchainTx := fc.1
  let db0 := fc.2.1
  let tr0 := fc.2.2
  let row := curationRowOf env event blockchainTx.id
  let skip : EventStepResult := ⟨db0, [row], tr0, false⟩
  if blockchainTx.transactionId.isSome && blockchainTx.state == .succeeded then
    -- related tx record has resolved
    skip
  else
    match decodeDonation env plat row with
    | none => skip
    | some (curatorUser, creatorUser, article) =>
      let amount := fromTokenBaseUnit event.args.amount env.USDTContractDecimals
      match blockchainTx.transactionId with
      | some txid =>
        match db0.findTransaction txid with
        | none =>
          -- reading fields of a missing row throws; nothing was written yet
          ⟨db0, [row], tr0, true⟩
        | some tx =>
          if tx.senderId == curatorUser.id && tx.recipientId == creatorUser.id
             && tx.targetId == article.id
             && toTokenBaseUnit tx.amount env.USDTContractDecimals == event.args.amount then
            -- related tx record is valid: lone state update, no paired write
            let db1 := markTransactionStateAs db0 tx.id .succeeded none
            ⟨db1, [row], tr0 ++ [.loneMarkTx tx.id .succeeded none], false⟩
          else
            -- cancel the stale row and add a new one, in one store transaction
            if plan.failMark || plan.failCreate || plan.failRepoint then
              ⟨db0, [row], tr0, true⟩
            else
              let db1 := markTransactionStateAs db0 tx.id .canceled (some .INVALID)
              let ct := createTransaction db1
                { amount := amount
                  state := .succeeded
                  purpose := .donation
                  currency := .USDT
                  provider := .blockchain
                  providerTxId := some blockchainTx.id
                  recipientId := creatorUser.id
                  senderId := curatorUser.id
                  targetId := article.id }
              let db2 := repointBlockchainTransaction ct.2 blockchainTx.id ct.1.id
              ⟨db2, [row],
               tr0 ++ [.loneMarkTx tx.id .canceled (some .INVALID),
                       .createLedgerTx ct.1.id .succeeded,
                       .repointBcTx blockchainTx.id ct.1.id],
               false⟩
      | none =>
        -- no related tx record: create and link one, in one store transaction
        if plan.failCreate || plan.failRepoint then
          ⟨db0, [row], tr0, true⟩
        else
          let ct := createTransaction db0
            { amount := amount
              state := .succeeded
              purpose := .donation
              currency := .USDT
              provider := .blockchain
              providerTxId := some blockchainTx.id
              recipientId := creatorUser.id
              senderId := curatorUser.id
              targetId := article.id }
          let db2 := repointBlockchainTransaction ct.2 blockchainTx.id ct.1.id
          ⟨db2, [row],
           tr0 ++ [.createLedgerTx ct.1.id .succeeded,
                   .repointBcTx blockchainTx.id ct.1.id],
           false⟩

/-- The removal (reorg) branch of the `syncCurationEvents` loop body: find or
create the blockchain transaction for the retracted hash, and when it links
to a ledger transaction, resolve the pair against the current receipt. -/
def processRemoval (receipts : List (String × TransactionReceipt))
    (db : DB) (event : CurationEvent) : EventStepResult :=
  let fc := findOrCreateBlockchainTransaction db event.transactionHash .pending
  let blockchainTx := fc.1
  let db0 := fc.2.1
  let tr0 := fc.2.2
  match blockchainTx.transactionId with
  | none =>
    -- no related tx record, do nothing
    ⟨db0, [], tr0, false⟩
  | some txid =>
    match db0.findTransaction txid with
    | none => ⟨db0, [], tr0, true⟩
    | some tx =>
      let receipt := getTransactionReceipt receipts event.transactionHash
      if tx.state == .succeeded then
        match receipt with
        | none =>
          -- not mined after the reorg: back to pending
          let r := resetBothTxAndBlockchainTx db0 txid blockchainTx.id
          ⟨r.1, [], tr0 ++ [r.2], false⟩
        | some rc =>
          if rc.status == 0 then
            let r := failBothTxAndBlockchainTx db0 txid blockchainTx.id
            ⟨r.1, [], tr0 ++ [r.2], false⟩
          else
            ⟨db0, [], tr0, false⟩
      else if tx.state == .failed then
        match receipt with
        | some rc =>
          if rc.status == 1 then
            let r := succeedBothTxAndBlockchainTx db0 txid blockchainTx.id
            ⟨r.1, [], tr0 ++ [r.2], false⟩
          else
            ⟨db0, [], tr0, false⟩
        | none => ⟨db0, [], tr0, false⟩
      else
        ⟨db0, [], tr0, false⟩

/-- One iteration of the `syncCurationEvents` loop. -/
def processCurationEvent (env : ChainEnv) (plat : Platform)
    (receipts : List (String × TransactionReceipt)) (db : DB)
    (event : CurationEvent) (plan : FailPlan) : EventStepResult :=
  if !event.removed then
    processAddition env plat db event plan
  else
    processRemoval receipts db event

/-- Result of `syncCurationEvents` on a batch. -/
structure SyncEventsResult where
  db : DB
  trace : List WriteOp
  crashed : Bool
  deriving DecidableEq, Repr

/-- The event loop of `syncCurationEvents`: process events in order, stop at
the first thrown error, and accumulate the mirror rows to batch insert. -/
def syncCurationEventsAux (env : ChainEnv) (plat : Platform)
    (receipts : List (String × TransactionReceipt)) (db : DB) :
    List CurationEvent → DB × List CurationEventRow × List WriteOp × Bool
  | [] => (db, [], [], false)
  | e :: rest =>
    let r := processCurationEvent env plat receipts db e noFail
    if r.crashed then
      (r.db, r.rows, r.trace, true)
    else
      let rr := syncCurationEventsAux env plat receipts r.db rest
      (rr.1, r.rows ++ rr.2.1, r.trace ++ rr.2.2.1, rr.2.2.2)

/-- Modelled from the spec: one upsert of a decoded mirror row into
`blockchain_curation_event`, keyed by the observed transaction (its
`blockchainTransactionId` column): a reprocessed hash replaces the existing
row instead of inserting a duplicate.  The persistence service is not part
of the given sources. -/
def upsertCurationEventRow (t : List CurationEventRow) (row : CurationEventRow) :
    List CurationEventRow :=
  if t.any (fun x => x.blockchainTransactionId == row.blockchainTransactionId) then
    t.map (fun x =>
      if x.blockchainTransactionId == row.blockchainTransactionId then row else x)
  else
    t ++ [row]

/-- Modelled from the spec: the `baseBatchCreate` of the decoded mirror rows
is the row by row idempotent upsert. -/
def batchUpsertCurationEvents (table : List CurationEventRow)
    (rows : List CurationEventRow) : List CurationEventRow :=
  rows.foldl upsertCurationEventRow table

/-- Number of mirror rows carrying a given blockchain transaction key. -/
def keyCount (table : List CurationEventRow) (k : Nat) : Nat :=
  table.countP (fun r => r.blockchainTransactionId == k)

/-- The id recorded for a transaction hash in the blockchain transaction
table. -/
def bcIdx (db : DB) (h : String) : Option Nat :=
  (db.findBlockchainTransactionByHash h).map (fun b => b.id)

/-- The source method `syncCurationEvents`: process a batch of curation
events, then commit all decoded mirror rows in one store transaction. -/
def syncCurationEvents (env : ChainEnv) (plat : Platform)
    (receipts : List (String × TransactionReceipt)) (db : DB)
    (events : List CurationEvent) : SyncEventsResult :=
  let r := syncCurationEventsAux env plat receipts db events
  if r.2.2.2 then
    ⟨r.1, r.2.2.1, true⟩
  else
    ⟨{ r.1 with curationEvents := batchUpsertCurationEvents r.1.curationEvents r.2.1 },
     r.2.2.1 ++ [.batchUpsertEvents r.2.1.length], false⟩

/-- Result of one run of `_handleSyncCurationEvents`: the database, the write
trace, whether the run threw, and the block range of the ranged query when
one was issued (`none` for the unbounded catch-up query). -/
structure SyncRunResult where
  db : DB
  trace : List WriteOp
  crashed : Bool
  queriedRange : Option (Int × Int)
  deriving DecidableEq, Repr

/-- The chain client `queryFilter` with a block range, modelled on the full
historical event list: events whose block number lies in the range. -/
def queryFilterRange (chainEvents : List CurationEvent) (fromBlock toBlock : Int) :
    List CurationEvent :=
  chainEvents.filter (fun e => fromBlock ≤ e.blockNumber && e.blockNumber ≤ toBlock)

/-- The source method `_handleSyncCurationEvents`: one synchronizer run.
`chainEvents` is the full historical event list the chain client would
return for the unbounded query, `height` is `getBlockNumber()`. -/
def handleSyncCurationEvents (env : ChainEnv) (plat : Platform)
    (receipts : List (String × TransactionReceipt))
    (chainEvents : List CurationEvent) (height : Int) (db : DB) : SyncRunResult :=
  let safeBlockNum := height - env.safeConfirms
  match db.syncRecord with
  | none =>
    -- no sync record in db: request getLog without block range
    let events := chainEvents
    let filtered := events.filter (fun e => decide (e.blockNumber ≤ safeBlockNum))
    let r := syncCurationEvents env plat receipts db filtered
    if r.crashed then
      ⟨r.db, r.trace, true, none⟩
    else if events.length == filtered.length then
      ⟨{ r.db with syncRecord := some safeBlockNum },
       r.trace ++ [.writeSyncRecord safeBlockNum], false, none⟩
    else
      match filtered.getLast? with
      | none =>
        -- filtered[filtered.length - 1] is undefined: reading .blockNumber throws
        ⟨r.db, r.trace, true, none⟩
      | some last =>
        ⟨{ r.db with syncRecord := some last.blockNumber },
         r.trace ++ [.writeSyncRecord last.blockNumber], false, none⟩
  | some cursor =>
    -- sync record in db: request getLog with a capped block range
    let fromBlockNum := cursor + 1
    let toBlockNum := min safeBlockNum (fromBlockNum + 1999)
    let events := queryFilterRange chainEvents fromBlockNum toBlockNum
    let r := syncCurationEvents env plat receipts db events
    if r.crashed then
      ⟨r.db, r.trace, true, some (fromBlockNum, toBlockNum)⟩
    else
      ⟨{ r.db with syncRecord := some toBlockNum },
       r.trace ++ [.writeSyncRecord toBlockNum], false, some (fromBlockNum, toBlockNum)⟩

/-- Input of one synchronizer run in a run sequence: the chain height, the
historical events the chain client reports, the receipts it serves, and the
platform data at that time. -/
structure SyncRunInput where
  height : Int
  chainEvents : List CurationEvent
  receipts : List (String × TransactionReceipt)
  plat : Platform
  deriving Repr

/-- Observation record of one run in a sequence: the persisted cursor before
the run, the ranged query issued, and the persisted cursor after the run. -/
structure RunRecord where
  preCursor : Option Int
  queriedRange : Option (Int × Int)
  postCursor : Option Int
  deriving DecidableEq, Repr

/-- A sequence of synchronizer runs, each against the chain state of its
input, threading the database; returns the observation record of every run. -/
def runSyncSequence (env : ChainEnv) (db : DB) : List SyncRunInput → List RunRecord
  | [] => []
  | i :: rest =>
    let r := handleSyncCurationEvents env i.plat i.receipts i.chainEvents i.height db
    ⟨db.syncRecord, r.queriedRange, r.db.syncRecord⟩ :: runSyncSequence env r.db rest

/-- Order on persisted cursor observations: an absent cursor precedes
everything, a present cursor never becomes absent and never decreases. -/
def cursorLEb : Option Int → Option Int → Bool
  | none, _ => true
  | some _, none => false
  | some a, some b => a ≤ b

/-- Whether a run record respects the strictly-after property: an incremental
run (one with a pre cursor) starts its ranged query exactly at cursor + 1. -/
def fromBlockOK : RunRecord → Bool
  | ⟨some c, some (f, _), _⟩ => f == c + 1
  | _ => true

/-! Concrete fixtures used by witnesses and counterexamples. -/

/-- A concrete environment: curation contract, USDT with 2 decimals, 12 safe
confirmations. -/
def env0 : ChainEnv := ⟨"0xcuration", "0xusdt", 2, 12⟩

/-- A curator user with a wallet address. -/
def user1 : User := ⟨1, some "0xaaa"⟩

/-- A creator user with a wallet address. -/
def user2 : User := ⟨2, some "0xbbb"⟩

/-- A creator user without a wallet address. -/
def user2n : User := ⟨2, none⟩

/-- An article of the creator with a content hash. -/
def art1 : Article := ⟨10, 2, some "cid1"⟩

/-- Platform data with both wallets present. -/
def plat0 : Platform := ⟨[user1, user2], [art1]⟩

/-- Platform data where the creator has no wallet address. -/
def platNoWallet : Platform := ⟨[user1, user2n], [art1]⟩

/-- A pending blockchain donation ledger transaction. -/
def tx7 : Transaction := ⟨7, .pending, none, .donation, .USDT, .blockchain, some 5, 1, 2, 10, 10⟩

/-- The same ledger transaction in `succeeded` state. -/
def tx7s : Transaction := ⟨7, .succeeded, none, .donation, .USDT, .blockchain, some 5, 1, 2, 10, 10⟩

/-- The same ledger transaction in `failed` state. -/
def tx7f : Transaction := ⟨7, .failed, none, .donation, .USDT, .blockchain, some 5, 1, 2, 10, 10⟩

/-- A mismatched ledger transaction: its sender is not the curator. -/
def tx7m : Transaction := ⟨7, .pending, none, .donation, .USDT, .blockchain, some 5, 3, 2, 10, 10⟩

/-- The blockchain transaction row linked to ledger transaction 7. -/
def bc5 : BlockchainTransaction := ⟨5, "0xh1", .pending, some 7⟩

/-- The linked blockchain transaction row in `succeeded` state. -/
def bc5s : BlockchainTransaction := ⟨5, "0xh1", .succeeded, some 7⟩

/-- Database with the pending pair. -/
def db1 : DB := ⟨[tx7], [bc5], [], none, 100, 50⟩

/-- Database with the pair in `succeeded` state. -/
def db1s : DB := ⟨[tx7s], [bc5s], [], none, 100, 50⟩

/-- Database with the ledger row `failed` and the blockchain row linked. -/
def db1f : DB := ⟨[tx7f], [bc5], [], none, 100, 50⟩

/-- Database with the mismatched pair. -/
def db1m : DB := ⟨[tx7m], [bc5], [], none, 100, 50⟩

/-- A curation addition event whose decoded donation matches transaction 7. -/
def evA : CurationEvent := ⟨100, "0xh1", false, ⟨"0xAaa", "0xbbb", "0xUSDT", "ipfs://cid1", 1000⟩⟩

/-- A removal event for a hash with no blockchain transaction row. -/
def evR : CurationEvent := ⟨100, "0xh9", true, ⟨"a", "b", "c", "ipfs://x", 1⟩⟩

/-- A removal event for the tracked hash. -/
def evR1 : CurationEvent := ⟨100, "0xh1", true, ⟨"a", "b", "c", "ipfs://x", 1⟩⟩

/-- A second addition event with another hash and a foreign token. -/
def evB : CurationEvent := ⟨101, "0xh2", false, ⟨"0xaaa", "0xbbb", "0xother", "ipfs://cid1", 5⟩⟩

/-- A receipt with failure status. -/
def rc0 : TransactionReceipt := ⟨0, []⟩

/-- A mined receipt with success status and no logs. -/
def rc1 : TransactionReceipt := ⟨1, []⟩

/-- A receipt log matching the expected donation of transaction 7. -/
def logM : Log := ⟨"0xCuration", [curationTopic], ⟨"0xAAA", "0xBBB", "0xusdt", "ipfs://cid1", 1000⟩⟩

/-- A mined receipt with success status and the matching log. -/
def rcM : TransactionReceipt := ⟨1, [logM]⟩

/-- A helper to build skip-only addition events at a block number. -/
def mkOtherTokenEvent (bn : Int) (h : String) : CurationEvent :=
  ⟨bn, h, false, ⟨"x", "y", "0xother", "ipfs://z", 1⟩⟩

/-- The historical chain events of the catch-up scenario: blocks 500, 990
and 995. -/
def chainEx : List CurationEvent :=
  [mkOtherTokenEvent 500 "0xh500", mkOtherTokenEvent 990 "0xh990",
   mkOtherTokenEvent 995 "0xh995"]

/-- An empty database with no sync record. -/
def db0 : DB := ⟨[], [], [], none, 1, 1⟩

/-- An empty database whose sync record is block 2000. -/
def db2000 : DB := ⟨[], [], [], some 2000, 1, 1⟩

/-- A sequence of three synchronizer runs with non decreasing heights. -/
def runs0 : List SyncRunInput :=
  [⟨1000, chainEx, [], plat0⟩, ⟨1000, chainEx, [], plat0⟩, ⟨5000, chainEx, [], plat0⟩]

/-! Basic lemmas about the embedded definitions. -/

/-- The `mkRat` form of `toTokenBaseUnit` equals scaling by `10 ^ decimals`. -/
theorem toTokenBaseUnit_eq (a : Rat) (d : Nat) : toTokenBaseUnit a d = a * 10 ^ d := by
  rw [toTokenBaseUnit, Rat.mkRat_eq_div]
  push_cast
  rw [mul_comm, mul_div_assoc, Rat.num_div_den, mul_comm]

/-- The `mkRat` form of `fromTokenBaseUnit` equals division by
`10 ^ decimals`. -/
theorem fromTokenBaseUnit_eq (a : Rat) (d : Nat) : fromTokenBaseUnit a d = a / 10 ^ d := by
  rw [fromTokenBaseUnit, Rat.mkRat_eq_div]
  push_cast
  rw [div_mul_eq_div_div, Rat.num_div_den]

/-! Counterexamples for the corrected claims. -/

/-- C1, counterexample: a removal event for a hash with no
BlockchainTransaction row is not free of state changes; the handler uses
find-or-create, so a fresh blockchain transaction row is inserted. -/
theorem c1_counterexample :
    db1.findBlockchainTransactionByHash "0xh9" = none
    ∧ (processCurationEvent env0 plat0 [] db1 evR noFail).db ≠ db1
    ∧ (processCurationEvent env0 plat0 [] db1 evR noFail).db.blockchainTxs.length
        = db1.blockchainTxs.length + 1 := by
  decide

/-- C2, counterexample: the Event Synchronizer addition path writes the
terminal ledger state `succeeded` with a lone `markTransactionStateAs`,
outside the shared state transition helper, when the linked ledger
transaction matches the decoded donation. -/
theorem c2_counterexample :
    (syncCurationEvents env0 plat0 [] db1 [evA]).trace.any WriteOp.isUnpairedTerminal = true := by
  decide

/-- C3, counterexample: with chain height 1000, 12 safe confirmations and
historical events at blocks 500, 990 and 995, the catch-up filter keeps only
block 500 (block 990 exceeds the safe height 988), and the persisted cursor
becomes 500, not 990 as the claim states. -/
theorem c3_counterexample :
    (chainEx.filter (fun e => decide (e.blockNumber ≤ (1000 : Int) - env0.safeConfirms))).map
        (fun e => e.blockNumber) = [500]
    ∧ (handleSyncCurationEvents env0 plat0 [] chainEx 1000 db0).crashed = false
    ∧ (handleSyncCurationEvents env0 plat0 [] chainEx 1000 db0).db.syncRecord = some 500
    ∧ (500 : Int) ≠ 990 := by
  decide

/-- C4, counterexample: with cursor 2000 and safe height 5000, the queried
range is [2001, 4000] (the upper bound is fromBlock + 1999 = 4000) and the
cursor after the run is 4000, not 3999 as the claim states. -/
theorem c4_counterexample :
    (handleSyncCurationEvents env0 plat0 [] [] 5012 db2000).queriedRange = some (2001, 4000)
    ∧ (handleSyncCurationEvents env0 plat0 [] [] 5012 db2000).db.syncRecord = some 4000
    ∧ ((4000 : Int) ≠ 3999) := by
  decide

/-! General helper lemmas and the claim theorems. -/

/-- C3: in catch-up mode (no sync record) the run issues the unbounded query
(no ranged query), processes exactly the events at block numbers not
exceeding the safe height, and persists the cursor as the safe height when
nothing was filtered out, else as the block number of the last filtered
event.  Amended from the claim: on the concrete scenario of the claim the
filtered set is [500] and the cursor becomes 500, not [500, 990] and 990. -/
theorem c3_catchup (env : ChainEnv) (plat : Platform)
    (receipts : List (String × TransactionReceipt))
    (chainEvents : List CurationEvent) (height : Int) (db : DB)
    (hrec : db.syncRecord = none) :
    (handleSyncCurationEvents env plat receipts chainEvents height db).queriedRange = none
    ∧ ((handleSyncCurationEvents env plat receipts chainEvents height db).crashed = false →
        chainEvents.length
          = (chainEvents.filter
              (fun e => decide (e.blockNumber ≤ height - env.safeConfirms))).length →
        (handleSyncCurationEvents env plat receipts chainEvents height db).db
          = { (syncCurationEvents env plat receipts db
                (chainEvents.filter
                  (fun e => decide (e.blockNumber ≤ height - env.safeConfirms)))).db
              with syncRecord := some (height - env.safeConfirms) })
    ∧ ((handleSyncCurationEvents env plat receipts chainEvents height db).crashed = false →
        chainEvents.length
          ≠ (chainEvents.filter
              (fun e => decide (e.blockNumber ≤ height - env.safeConfirms))).length →
        ∃ last,
          (chainEvents.filter
            (fun e => decide (e.blockNumber ≤ height - env.safeConfirms))).getLast?
            = some last
          ∧ (handleSyncCurationEvents env plat receipts chainEvents height db).db
              = { (syncCurationEvents env plat receipts db
                    (chainEvents.filter
                      (fun e => decide (e.blockNumber ≤ height - env.safeConfirms)))).db
                  with syncRecord := some last.blockNumber }) := by
  simp only [handleSyncCurationEvents, hrec]
  split
  · simp
  · next hcrash =>
    split
    · next hlen =>
      simp only [beq_iff_eq] at hlen
      refine ⟨rfl, fun _ _ => rfl, fun _ hne => absurd hlen hne⟩
    · next hlen =>
      simp only [beq_iff_eq] at hlen
      split
      · next hlast =>
        refine ⟨rfl, ?_, ?_⟩
        · intro hc _
          simp at hc
        · intro hc _
          simp at hc
      · next last hlast =>
        refine ⟨rfl, fun _ hl => absurd hl hlen, fun _ _ => ⟨last, hlast, rfl⟩⟩

/-- C4: in incremental mode (a sync record with cursor c) the run queries
exactly the range [c + 1, min(safeHeight, c + 1 + 1999)] and, when it does
not throw, persists the cursor as that upper bound while the rest of the
database is the result of processing the ranged batch.  Amended from the
claim: with cursor 2000 and safe height 5000 the range is [2001, 4000] and
the cursor becomes 4000, not [2001, 3999] and 3999. -/
theorem c4_incremental (env : ChainEnv) (plat : Platform)
    (receipts : List (String × TransactionReceipt))
    (chainEvents : List CurationEvent) (height : Int) (db : DB) (c : Int)
    (hrec : db.syncRecord = some c) :
    (handleSyncCurationEvents env plat receipts chainEvents height db).queriedRange
        = some (c + 1, min (height - env.safeConfirms) (c + 1 + 1999))
    ∧ ((handleSyncCurationEvents env plat receipts chainEvents height db).crashed = false →
        (handleSyncCurationEvents env plat receipts chainEvents height db).db
          = { (syncCurationEvents env plat receipts db
                (queryFilterRange chainEvents (c + 1)
                  (min (height - env.safeConfirms) (c + 1 + 1999)))).db
              with syncRecord := some (min (height - env.safeConfirms) (c + 1 + 1999)) }) := by
  simp only [handleSyncCurationEvents, hrec]
  split
  · next hcrash =>
    refine ⟨rfl, fun hc => ?_⟩
    simp_all
  · exact ⟨rfl, fun _ => rfl⟩

/-- C4, witness: the amended incremental theorem applied at cursor 2000 and
height 5012. -/
theorem c4_witness :
    (handleSyncCurationEvents env0 plat0 [] [] 5012 db2000).queriedRange = some (2001, 4000)
    ∧ (handleSyncCurationEvents env0 plat0 [] [] 5012 db2000).db.syncRecord = some 4000 := by
  have h := c4_incremental env0 plat0 [] [] 5012 db2000 2000 (by decide)
  constructor
  · rw [h.1]; decide
  · rw [h.2 (by decide)]; decide

/-- C3, witness: the amended catch-up theorem applied at the scenario of the
claim; the cursor lands on 500. -/
theorem c3_witness :
    (handleSyncCurationEvents env0 plat0 [] chainEx 1000 db0).queriedRange = none
    ∧ (handleSyncCurationEvents env0 plat0 [] chainEx 1000 db0).db.syncRecord = some 500 := by
  have h := c3_catchup env0 plat0 [] chainEx 1000 db0 (by decide)
  constructor
  · exact h.1
  · obtain ⟨last, hlast, hdb⟩ := h.2.2 (by decide) (by decide)
    have hg : (chainEx.filter
        (fun e => decide (e.blockNumber ≤ (1000 : Int) - env0.safeConfirms))).getLast?
        = some (mkOtherTokenEvent 500 "0xh500") := by decide
    rw [hg] at hlast
    cases hlast
    rw [hdb]
    decide

/-- Mapping a function that preserves the predicate commutes with find. -/
theorem find?_map_pred {α : Type} (f : α → α) (p : α → Bool)
    (hp : ∀ a, p (f a) = p a) :
    ∀ l : List α, (l.map f).find? p = (l.find? p).map f := by
  intro l
  induction l with
  | nil => rfl
  | cons a t ih =>
    simp only [List.map_cons, List.find?_cons]
    rw [hp a]
    cases hpa : p a
    · simpa using ih
    · rfl

/-- Find on an appended list when the left part already has a hit. -/
theorem find?_append_left {α : Type} (l₁ l₂ : List α) (p : α → Bool) (a : α)
    (h : l₁.find? p = some a) : (l₁ ++ l₂).find? p = some a := by
  induction l₁ with
  | nil => simp [List.find?] at h
  | cons x t ih =>
    simp only [List.cons_append, List.find?_cons] at *
    cases hx : p x
    · rw [hx] at h; simpa using ih h
    · rw [hx] at h; simpa using h

/-- Find on an appended list when the left part has no hit. -/
theorem find?_append_none {α : Type} (l₁ l₂ : List α) (p : α → Bool)
    (h : l₁.find? p = none) : (l₁ ++ l₂).find? p = l₂.find? p := by
  induction l₁ with
  | nil => rfl
  | cons x t ih =>
    simp only [List.cons_append, List.find?_cons] at *
    cases hx : p x
    · rw [hx] at h; simpa using ih h
    · rw [hx] at h; simp at h

/-- Looking up the marked ledger transaction after a state mark. -/
theorem findTransaction_mark_self (db : DB) (i : Nat) (st : TRANSACTION_STATE)
    (rm : Option TRANSACTION_REMARK) (tx : Transaction)
    (h : db.findTransaction i = some tx) :
    (markTransactionStateAs db i st rm).findTransaction i
      = some { tx with
               state := st
               remark := match rm with
                         | some r => some r
                         | none => tx.remark } := by
  have hsome := List.find?_some h
  unfold DB.findTransaction markTransactionStateAs
  rw [find?_map_pred _ _ ?hp]
  case hp =>
    intro a
    by_cases ha : (a.id == i) = true
    · simp [ha]
    · simp [ha]
  unfold DB.findTransaction at h
  rw [h]
  simp only [Option.map_some']
  rw [if_pos hsome]

/-- Looking up the marked blockchain transaction after a state mark. -/
theorem findBc_mark_self (db : DB) (i : Nat) (st : BLOCKCHAIN_TRANSACTION_STATE)
    (bc : BlockchainTransaction)
    (h : db.findBlockchainTransactionById i = some bc) :
    (markBlockchainTransactionStateAs db i st).findBlockchainTransactionById i
      = some { bc with state := st } := by
  have hsome := List.find?_some h
  unfold DB.findBlockchainTransactionById markBlockchainTransactionStateAs
  rw [find?_map_pred _ _ ?hp]
  case hp =>
    intro a
    by_cases ha : (a.id == i) = true
    · simp [ha]
    · simp [ha]
  unfold DB.findBlockchainTransactionById at h
  rw [h]
  simp only [Option.map_some']
  rw [if_pos hsome]

/-- The database component of the shared state transition helper. -/
theorem updateBoth_fst (db : DB) (a : Nat) (b : TRANSACTION_STATE)
    (c : Option TRANSACTION_REMARK) (d : Nat) (e : BLOCKCHAIN_TRANSACTION_STATE) :
    (updateTxAndBlockchainTxState db a b c d e).1
      = markBlockchainTransactionStateAs (markTransactionStateAs db a b c) d e := rfl

/-- Marking a blockchain transaction leaves the ledger table unchanged. -/
theorem findTransaction_markBc (db : DB) (i : Nat) (s : BLOCKCHAIN_TRANSACTION_STATE)
    (j : Nat) :
    (markBlockchainTransactionStateAs db i s).findTransaction j = db.findTransaction j := rfl

/-- Marking a ledger transaction leaves the blockchain table unchanged. -/
theorem findBc_markTx (db : DB) (i : Nat) (st : TRANSACTION_STATE)
    (rm : Option TRANSACTION_REMARK) (j : Nat) :
    (markTransactionStateAs db i st rm).findBlockchainTransactionById j
      = db.findBlockchainTransactionById j := rfl

/-- After the shared helper runs, both rows show the written states. -/
theorem pairStates_updateBoth (db : DB) (txId bcId : Nat) (ts : TRANSACTION_STATE)
    (rm : Option TRANSACTION_REMARK) (bs : BLOCKCHAIN_TRANSACTION_STATE)
    (tx : Transaction) (htx : db.findTransaction txId = some tx)
    (bc2 : BlockchainTransaction) (hbc : db.findBlockchainTransactionById bcId = some bc2) :
    (((updateTxAndBlockchainTxState db txId ts rm bcId bs).1.findTransaction txId).map
        (fun t => t.state) = some ts)
    ∧ (((updateTxAndBlockchainTxState db txId ts rm bcId
          bs).1.findBlockchainTransactionById bcId).map (fun b => b.state) = some bs) := by
  constructor
  · rw [updateBoth_fst, findTransaction_markBc,
      findTransaction_mark_self db txId ts rm tx htx]
    rfl
  · rw [updateBoth_fst]
    have h2 : (markTransactionStateAs db txId ts rm).findBlockchainTransactionById bcId
        = some bc2 := by
      rw [findBc_markTx]
      exact hbc
    rw [findBc_mark_self _ bcId bs bc2 h2]
    rfl

/-- C1: processing a removal event.  When no BlockchainTransaction row
exists for the retracted hash, a fresh unlinked row is created by the
find-or-create call (amended from the claim, which states that nothing
changes) and nothing else changes; when the row exists but has no linked
LedgerTransaction nothing changes; otherwise the reorg resolution table
applies: succeeded with no receipt goes to pending/pending, succeeded with a
status 0 receipt goes to failed/reverted, failed with a status 1 receipt
goes to succeeded/succeeded, and every other combination leaves the database
unchanged. -/
theorem c1_removal_resolution (env : ChainEnv) (plat : Platform)
    (receipts : List (String × TransactionReceipt)) (db : DB) (e : CurationEvent)
    (hrm : e.removed = true) :
    (db.findBlockchainTransactionByHash e.transactionHash = none →
       (processCurationEvent env plat receipts db e noFail).crashed = false
       ∧ (processCurationEvent env plat receipts db e noFail).db
           = { db with
               blockchainTxs := db.blockchainTxs
                 ++ [⟨db.nextBlockchainTxId, e.transactionHash, .pending, none⟩]
               nextBlockchainTxId := db.nextBlockchainTxId + 1 })
    ∧ (∀ bc, db.findBlockchainTransactionByHash e.transactionHash = some bc →
        (bc.transactionId = none →
           (processCurationEvent env plat receipts db e noFail).db = db
           ∧ (processCurationEvent env plat receipts db e noFail).crashed = false)
        ∧ (∀ txid tx, bc.transactionId = some txid → db.findTransaction txid = some tx →
            (tx.state = .succeeded →
               getTransactionReceipt receipts e.transactionHash = none →
               (processCurationEvent env plat receipts db e noFail).db
                   = (resetBothTxAndBlockchainTx db txid bc.id).1
               ∧ (((processCurationEvent env plat receipts db e noFail).db.findTransaction
                     txid).map (fun t => t.state)) = some .pending
               ∧ (((processCurationEvent env plat receipts db e
                     noFail).db.findBlockchainTransactionById bc.id).map (fun b => b.state))
                   = some .pending)
            ∧ (∀ rc, tx.state = .succeeded →
                 getTransactionReceipt receipts e.transactionHash = some rc → rc.status = 0 →
                 (processCurationEvent env plat receipts db e noFail).db
                     = (failBothTxAndBlockchainTx db txid bc.id).1
                 ∧ (((processCurationEvent env plat receipts db e noFail).db.findTransaction
                       txid).map (fun t => t.state)) = some .failed
                 ∧ (((processCurationEvent env plat receipts db e
                       noFail).db.findBlockchainTransactionById bc.id).map (fun b => b.state))
                     = some .reverted)
            ∧ (∀ rc, tx.state = .failed →
                 getTransactionReceipt receipts e.transactionHash = some rc → rc.status = 1 →
                 (processCurationEvent env plat receipts db e noFail).db
                     = (succeedBothTxAndBlockchainTx db txid bc.id).1
                 ∧ (((processCurationEvent env plat receipts db e noFail).db.findTransaction
                       txid).map (fun t => t.state)) = some .succeeded
                 ∧ (((processCurationEvent env plat receipts db e
                       noFail).db.findBlockchainTransactionById bc.id).map (fun b => b.state))
                     = some .succeeded)
            ∧ (∀ rc, tx.state = .succeeded →
                 getTransactionReceipt receipts e.transactionHash = some rc → rc.status ≠ 0 →
                 (processCurationEvent env plat receipts db e noFail).db = db)
            ∧ (tx.state = .failed →
                 getTransactionReceipt receipts e.transactionHash = none →
                 (processCurationEvent env plat receipts db e noFail).db = db)
            ∧ (∀ rc, tx.state = .failed →
                 getTransactionReceipt receipts e.transactionHash = some rc → rc.status ≠ 1 →
                 (processCurationEvent env plat receipts db e noFail).db = db)
            ∧ (tx.state = .pending →
                 (processCurationEvent env plat receipts db e noFail).db = db)
            ∧ (tx.state = .canceled →
                 (processCurationEvent env plat receipts db e noFail).db = db))) := by
  simp only [processCurationEvent, hrm, Bool.not_true, Bool.false_eq_true, if_false]
  constructor
  · intro hnone
    simp [processRemoval, findOrCreateBlockchainTransaction, hnone]
  · intro bc hsome
    have hmem : bc ∈ db.blockchainTxs := List.mem_of_find?_eq_some hsome
    have hfind : ∃ bc2, db.findBlockchainTransactionById bc.id = some bc2 := by
      have hs : (db.blockchainTxs.find? (fun b => b.id == bc.id)).isSome := by
        rw [List.find?_isSome]
        exact ⟨bc, hmem, by simp⟩
      obtain ⟨bc2, hbc2⟩ := Option.isSome_iff_exists.mp hs
      exact ⟨bc2, hbc2⟩
    obtain ⟨bc2, hbc2⟩ := hfind
    constructor
    · intro hlink
      simp [processRemoval, findOrCreateBlockchainTransaction, hsome, hlink]
    · intro txid tx hlink htx
      refine ⟨?_, ?_, ?_, ?_, ?_, ?_, ?_, ?_⟩
      · intro hst hr
        have hdb : (processRemoval receipts db e).db
            = (resetBothTxAndBlockchainTx db txid bc.id).1 := by
          simp [processRemoval, findOrCreateBlockchainTransaction, hsome, hlink, htx, hr, hst]
        have hp := pairStates_updateBoth db txid bc.id .pending none .pending tx htx bc2 hbc2
        exact ⟨hdb, by rw [hdb]; exact hp.1, by rw [hdb]; exact hp.2⟩
      · intro rc hst hrc h0
        have hdb : (processRemoval receipts db e).db
            = (failBothTxAndBlockchainTx db txid bc.id).1 := by
          simp [processRemoval, findOrCreateBlockchainTransaction, hsome, hlink, htx, hrc,
            hst, h0]
        have hp := pairStates_updateBoth db txid bc.id .failed none .reverted tx htx bc2 hbc2
        exact ⟨hdb, by rw [hdb]; exact hp.1, by rw [hdb]; exact hp.2⟩
      · intro rc hst hrc h1
        have hdb : (processRemoval receipts db e).db
            = (succeedBothTxAndBlockchainTx db txid bc.id).1 := by
          simp [processRemoval, findOrCreateBlockchainTransaction, hsome, hlink, htx, hrc,
            hst, h1]
        have hp := pairStates_updateBoth db txid bc.id .succeeded none .succeeded tx htx
          bc2 hbc2
        exact ⟨hdb, by rw [hdb]; exact hp.1, by rw [hdb]; exact hp.2⟩
      · intro rc hst hrc h0
        simp [processRemoval, findOrCreateBlockchainTransaction, hsome, hlink, htx, hrc,
          hst, h0]
      · intro hst hr
        simp [processRemoval, findOrCreateBlockchainTransaction, hsome, hlink, htx, hr, hst]
      · intro rc hst hrc h1
        simp [processRemoval, findOrCreateBlockchainTransaction, hsome, hlink, htx, hrc,
          hst, h1]
      · intro hst
        simp [processRemoval, findOrCreateBlockchainTransaction, hsome, hlink, htx, hst]
      · intro hst
        simp [processRemoval, findOrCreateBlockchainTransaction, hsome, hlink, htx, hst]

/-- C1, witness: the removal theorem applied to a succeeded pair whose
receipt disappeared; both rows land on pending. -/
theorem c1_witness :
    ((processCurationEvent env0 plat0 [] db1s evR1 noFail).db.findTransaction 7).map
        (fun t => t.state) = some TRANSACTION_STATE.pending
    ∧ ((processCurationEvent env0 plat0 [] db1s evR1
          noFail).db.findBlockchainTransactionById 5).map (fun b => b.state)
        = some BLOCKCHAIN_TRANSACTION_STATE.pending := by
  have h := c1_removal_resolution env0 plat0 [] db1s evR1 (by decide)
  have h2 := (h.2 bc5s (by decide)).2 7 tx7s (by decide) (by decide)
  have h3 := h2.1 (by decide) (by decide)
  exact ⟨h3.2.1, h3.2.2⟩

/-- The find-or-create trace holds no unpaired terminal ledger write. -/
theorem trace_findOrCreate_paired (db : DB) (h : String)
    (s : BLOCKCHAIN_TRANSACTION_STATE) :
    ((findOrCreateBlockchainTransaction db h s).2.2.all
      (fun op => !op.isUnpairedTerminal)) = true := by
  unfold findOrCreateBlockchainTransaction
  split <;> simp [WriteOp.isUnpairedTerminal]

/-- C2, amended: every terminal ledger state written by the Pay-To Verifier
or by the reorg removal branch of the Event Synchronizer goes through the
shared state transition helper as a paired update; the claim as stated is
false because the addition reconciliation branch writes terminal states
outside the helper (see the counterexample). -/
theorem c2_terminal_writes_paired :
    (∀ (env : ChainEnv) (plat : Platform)
       (receipts : List (String × TransactionReceipt)) (db : DB) (txId : Nat),
       ((handlePayTo env plat receipts db txId).trace.all
         (fun op => !op.isUnpairedTerminal)) = true)
    ∧ (∀ (env : ChainEnv) (plat : Platform)
         (receipts : List (String × TransactionReceipt)) (db : DB)
         (e : CurationEvent) (plan : FailPlan), e.removed = true →
         ((processCurationEvent env plat receipts db e plan).trace.all
           (fun op => !op.isUnpairedTerminal)) = true) := by
  constructor
  · intro env plat receipts db txId
    unfold handlePayTo
    repeat' split
    all_goals
      simp [WriteOp.isUnpairedTerminal, failBothTxAndBlockchainTx,
        succeedBothTxAndBlockchainTx, updateTxAndBlockchainTxState]
  · intro env plat receipts db e plan hrm
    simp only [processCurationEvent, hrm, Bool.not_true, Bool.false_eq_true, if_false]
    have htr := trace_findOrCreate_paired db e.transactionHash .pending
    unfold processRemoval
    dsimp only
    repeat' split
    all_goals
      simp_all [WriteOp.isUnpairedTerminal, resetBothTxAndBlockchainTx,
        failBothTxAndBlockchainTx, succeedBothTxAndBlockchainTx,
        updateTxAndBlockchainTxState]

/-- C2, witness: both parts of the amended theorem at concrete inputs. -/
theorem c2_witness :
    ((handlePayTo env0 plat0 [] db1 7).trace.all (fun op => !op.isUnpairedTerminal)) = true
    ∧ ((processCurationEvent env0 plat0 [] db1s evR1 noFail).trace.all
        (fun op => !op.isUnpairedTerminal)) = true :=
  ⟨c2_terminal_writes_paired.1 env0 plat0 [] db1 7,
   c2_terminal_writes_paired.2 env0 plat0 [] db1s evR1 noFail (by decide)⟩

/-- Outcome of a pay-to attempt when the ledger transaction is missing. -/
theorem payTo_outcome_noTx (env : ChainEnv) (plat : Platform)
    (receipts : List (String × TransactionReceipt)) (db : DB) (txId : Nat)
    (h : db.findTransaction txId = none) :
    handlePayTo env plat receipts db txId = ⟨db, [], .discarded⟩ := by
  unfold handlePayTo
  rw [h]

/-- Outcome of a pay-to attempt on a non blockchain provider. -/
theorem payTo_outcome_wrongProvider (env : ChainEnv) (plat : Platform)
    (receipts : List (String × TransactionReceipt)) (db : DB) (txId : Nat)
    (tx : Transaction) (htx : db.findTransaction txId = some tx)
    (hp : tx.provider ≠ .blockchain) :
    handlePayTo env plat receipts db txId = ⟨db, [], .discarded⟩ := by
  unfold handlePayTo
  rw [htx]
  simp only [bne_iff_ne, ne_eq, hp, not_false_eq_true, if_true]

/-- Outcome of a pay-to attempt when the blockchain transaction is missing. -/
theorem payTo_outcome_noBc (env : ChainEnv) (plat : Platform)
    (receipts : List (String × TransactionReceipt)) (db : DB) (txId : Nat)
    (tx : Transaction) (htx : db.findTransaction txId = some tx)
    (hp : tx.provider = .blockchain)
    (hbc : tx.providerTxId.bind db.findBlockchainTransactionById = none) :
    handlePayTo env plat receipts db txId = ⟨db, [], .discarded⟩ := by
  unfold handlePayTo
  rw [htx]
  simp only [bne_iff_ne, ne_eq, hp, not_true_eq_false, if_false, hbc]

/-- Outcome of a pay-to attempt when the receipt is not yet available. -/
theorem payTo_outcome_noReceipt (env : ChainEnv) (plat : Platform)
    (receipts : List (String × TransactionReceipt)) (db : DB) (txId : Nat)
    (tx : Transaction) (bc : BlockchainTransaction)
    (htx : db.findTransaction txId = some tx)
    (hp : tx.provider = .blockchain)
    (hbc : tx.providerTxId.bind db.findBlockchainTransactionById = some bc)
    (hr : getTransactionReceipt receipts bc.txHash = none) :
    handlePayTo env plat receipts db txId = ⟨db, [], .retry⟩ := by
  unfold handlePayTo
  rw [htx]
  simp only [bne_iff_ne, ne_eq, hp, not_true_eq_false, if_false, hbc, hr]

/-- Outcome of a pay-to attempt once a receipt exists and the referenced
rows resolve: the attempt always terminates normally. -/
theorem payTo_outcome_receipt (env : ChainEnv) (plat : Platform)
    (receipts : List (String × TransactionReceipt)) (db : DB) (txId : Nat)
    (tx : Transaction) (bc : BlockchainTransaction) (rc : TransactionReceipt)
    (htx : db.findTransaction txId = some tx)
    (hp : tx.provider = .blockchain)
    (hbc : tx.providerTxId.bind db.findBlockchainTransactionById = some bc)
    (hr : getTransactionReceipt receipts bc.txHash = some rc)
    (hrec : (plat.findUserById tx.recipientId).isSome = true)
    (hsen : (plat.findUserById tx.senderId).isSome = true)
    (hart : (plat.articles.find? (fun a => a.id == tx.targetId)).isSome = true) :
    (handlePayTo env plat receipts db txId).outcome = .done := by
  obtain ⟨recipient, hrec2⟩ := Option.isSome_iff_exists.mp hrec
  obtain ⟨sender, hsen2⟩ := Option.isSome_iff_exists.mp hsen
  obtain ⟨articleDb, hart2⟩ := Option.isSome_iff_exists.mp hart
  unfold handlePayTo
  rw [htx]
  simp only [bne_iff_ne, ne_eq, hp, not_true_eq_false, if_false, hbc, hr, hrec2, hsen2,
    hart2]
  split
  · rfl
  · split
    · rfl
    · rfl

/-- C6: retry policy of a pay-to verification attempt.  When every row
reference in the ledger resolves, an attempt raises a retryable error
exactly when the transaction data is well formed but the receipt is absent;
it is discarded exactly when the ledger transaction is missing, its
provider is not blockchain, or the blockchain transaction link is missing;
and it terminates normally exactly when the job is well formed and a
receipt exists. -/
theorem c6_retry_policy (env : ChainEnv) (plat : Platform)
    (receipts : List (String × TransactionReceipt)) (db : DB) (txId : Nat)
    (hwf : ∀ t ∈ db.txs,
      (plat.findUserById t.recipientId).isSome = true
      ∧ (plat.findUserById t.senderId).isSome = true
      ∧ (plat.articles.find? (fun a => a.id == t.targetId)).isSome = true) :
    ((handlePayTo env plat receipts db txId).outcome = .retry
      ↔ ∃ tx bc, db.findTransaction txId = some tx
          ∧ tx.provider = .blockchain
          ∧ tx.providerTxId.bind db.findBlockchainTransactionById = some bc
          ∧ getTransactionReceipt receipts bc.txHash = none)
    ∧ ((handlePayTo env plat receipts db txId).outcome = .discarded
      ↔ (db.findTransaction txId = none
          ∨ ∃ tx, db.findTransaction txId = some tx
              ∧ (tx.provider ≠ .blockchain
                 ∨ tx.providerTxId.bind db.findBlockchainTransactionById = none)))
    ∧ ((handlePayTo env plat receipts db txId).outcome = .done
      ↔ ∃ tx bc rc, db.findTransaction txId = some tx
          ∧ tx.provider = .blockchain
          ∧ tx.providerTxId.bind db.findBlockchainTransactionById = some bc
          ∧ getTransactionReceipt receipts bc.txHash = some rc) := by
  rcases htxe : db.findTransaction txId with _ | tx
  · have ho := payTo_outcome_noTx env plat receipts db txId htxe
    refine ⟨iff_of_false (by rw [ho]; simp) ?_, iff_of_true (by rw [ho]) (Or.inl rfl),
      iff_of_false (by rw [ho]; simp) ?_⟩
    · rintro ⟨tx, bc, hf, -⟩
      cases hf
    · rintro ⟨tx, bc, rc, hf, -⟩
      cases hf
  · by_cases hp : tx.provider = PAYMENT_PROVIDER.blockchain
    · rcases hbce : tx.providerTxId.bind db.findBlockchainTransactionById with _ | bc
      · have ho := payTo_outcome_noBc env plat receipts db txId tx htxe hp hbce
        refine ⟨iff_of_false (by rw [ho]; simp) ?_,
          iff_of_true (by rw [ho]) (Or.inr ⟨tx, rfl, Or.inr hbce⟩),
          iff_of_false (by rw [ho]; simp) ?_⟩
        · rintro ⟨tx2, bc, hf, -, hbc2, -⟩
          obtain rfl := Option.some.inj hf
          rw [hbce] at hbc2
          cases hbc2
        · rintro ⟨tx2, bc, rc, hf, -, hbc2, -⟩
          obtain rfl := Option.some.inj hf
          rw [hbce] at hbc2
          cases hbc2
      · rcases hre : getTransactionReceipt receipts bc.txHash with _ | rc
        · have ho := payTo_outcome_noReceipt env plat receipts db txId tx bc htxe hp hbce hre
          refine ⟨iff_of_true (by rw [ho]) ⟨tx, bc, rfl, hp, hbce, hre⟩,
            iff_of_false (by rw [ho]; simp) ?_, iff_of_false (by rw [ho]; simp) ?_⟩
          · rintro (hn | ⟨tx2, hf, hc⟩)
            · cases hn
            · obtain rfl := Option.some.inj hf
              rcases hc with hc | hc
              · exact hc hp
              · rw [hbce] at hc
                cases hc
          · rintro ⟨tx2, bc2, rc, hf, -, hbc2, hr2⟩
            obtain rfl := Option.some.inj hf
            rw [hbce] at hbc2
            obtain rfl := Option.some.inj hbc2
            rw [hre] at hr2
            cases hr2
        · have hmem : tx ∈ db.txs := List.mem_of_find?_eq_some htxe
          obtain ⟨h1, h2, h3⟩ := hwf tx hmem
          have ho := payTo_outcome_receipt env plat receipts db txId tx bc rc htxe hp hbce
            hre h1 h2 h3
          refine ⟨iff_of_false (by rw [ho]; simp) ?_, iff_of_false (by rw [ho]; simp) ?_,
            iff_of_true ho ⟨tx, bc, rc, rfl, hp, hbce, hre⟩⟩
          · rintro ⟨tx2, bc2, hf, -, hbc2, hr2⟩
            obtain rfl := Option.some.inj hf
            rw [hbce] at hbc2
            obtain rfl := Option.some.inj hbc2
            rw [hre] at hr2
            cases hr2
          · rintro (hn | ⟨tx2, hf, hc⟩)
            · cases hn
            · obtain rfl := Option.some.inj hf
              rcases hc with hc | hc
              · exact hc hp
              · rw [hbce] at hc
                cases hc
    · have ho := payTo_outcome_wrongProvider env plat receipts db txId tx htxe hp
      refine ⟨iff_of_false (by rw [ho]; simp) ?_,
        iff_of_true (by rw [ho]) (Or.inr ⟨tx, rfl, Or.inl hp⟩),
        iff_of_false (by rw [ho]; simp) ?_⟩
      · rintro ⟨tx2, bc, hf, hp2, -⟩
        obtain rfl := Option.some.inj hf
        exact hp hp2
      · rintro ⟨tx2, bc, rc, hf, hp2, -⟩
        obtain rfl := Option.some.inj hf
        exact hp hp2

/-- C6, witness: the retry policy theorem at a concrete well formed ledger;
with no receipt the attempt is retried, and with a mined receipt it ends
normally. -/
theorem c6_witness :
    (handlePayTo env0 plat0 [] db1 7).outcome = JobOutcome.retry
    ∧ (handlePayTo env0 plat0 [("0xh1", rc1)] db1 7).outcome = JobOutcome.done
    ∧ (handlePayTo env0 plat0 [] db1 8).outcome = JobOutcome.discarded := by
  have h1 := c6_retry_policy env0 plat0 [] db1 7 (by decide)
  have h2 := c6_retry_policy env0 plat0 [("0xh1", rc1)] db1 7 (by decide)
  have h3 := c6_retry_policy env0 plat0 [] db1 8 (by decide)
  refine ⟨h1.1.mpr ⟨tx7, bc5, by decide, by decide, by decide, by decide⟩,
    (h2.2.2).mpr ⟨tx7, bc5, rc1, by decide, by decide, by decide, by decide⟩,
    (h3.2.1).mpr (Or.inl (by decide))⟩

/-- Marking the same ledger state twice equals marking it once. -/
theorem markTx_markTx (db : DB) (i : Nat) (st : TRANSACTION_STATE)
    (rm : Option TRANSACTION_REMARK) :
    markTransactionStateAs (markTransactionStateAs db i st rm) i st rm
      = markTransactionStateAs db i st rm := by
  unfold markTransactionStateAs
  simp only [List.map_map]
  congr 1
  apply List.map_congr_left
  intro t _
  simp only [Function.comp_apply]
  by_cases h : (t.id == i) = true
  · rw [if_pos h, if_pos h]
    cases rm <;> rfl
  · rw [if_neg h, if_neg h]

/-- Marking the same blockchain state twice equals marking it once. -/
theorem markBc_markBc (db : DB) (j : Nat) (s : BLOCKCHAIN_TRANSACTION_STATE) :
    markBlockchainTransactionStateAs (markBlockchainTransactionStateAs db j s) j s
      = markBlockchainTransactionStateAs db j s := by
  unfold markBlockchainTransactionStateAs
  simp only [List.map_map]
  congr 1
  apply List.map_congr_left
  intro b _
  simp only [Function.comp_apply]
  by_cases h : (b.id == j) = true
  · rw [if_pos h, if_pos h]
  · rw [if_neg h, if_neg h]

/-- The two marks of the shared helper touch different tables and commute. -/
theorem markTx_markBc_comm (db : DB) (i : Nat) (st : TRANSACTION_STATE)
    (rm : Option TRANSACTION_REMARK) (j : Nat) (s : BLOCKCHAIN_TRANSACTION_STATE) :
    markTransactionStateAs (markBlockchainTransactionStateAs db j s) i st rm
      = markBlockchainTransactionStateAs (markTransactionStateAs db i st rm) j s := rfl

/-- Running the shared helper twice with the same arguments is idempotent. -/
theorem updateBoth_idem (db : DB) (i : Nat) (st : TRANSACTION_STATE)
    (rm : Option TRANSACTION_REMARK) (j : Nat) (s : BLOCKCHAIN_TRANSACTION_STATE) :
    (updateTxAndBlockchainTxState
        ((updateTxAndBlockchainTxState db i st rm j s).1) i st rm j s).1
      = (updateTxAndBlockchainTxState db i st rm j s).1 := by
  rw [updateBoth_fst, updateBoth_fst, markTx_markBc_comm, markTx_markTx, markBc_markBc]

/-- The full run of a pay-to attempt on a mined status 1 receipt whose logs
do not match: the pair is canceled as invalid and the attempt ends. -/
theorem payTo_mismatch_run (env : ChainEnv) (plat : Platform)
    (receipts : List (String × TransactionReceipt)) (db : DB) (txId : Nat)
    (tx : Transaction) (bc : BlockchainTransaction) (rc : TransactionReceipt)
    (recipient sender : User) (articleDb : Article)
    (htx : db.findTransaction txId = some tx)
    (hp : tx.provider = .blockchain)
    (hbc : tx.providerTxId.bind db.findBlockchainTransactionById = some bc)
    (hr : getTransactionReceipt receipts bc.txHash = some rc)
    (hst : rc.status = 1)
    (hrec2 : plat.findUserById tx.recipientId = some recipient)
    (hsen2 : plat.findUserById tx.senderId = some sender)
    (hart2 : plat.articles.find? (fun a => a.id == tx.targetId) = some articleDb)
    (hnm : containMatchedEvent env rc.logs
        (expectedParamsOf env tx sender recipient articleDb) = false) :
    handlePayTo env plat receipts db txId
      = ⟨(updateTxAndBlockchainTxState db txId .canceled (some .INVALID) bc.id
            .succeeded).1,
         [.pairedUpdate txId .canceled (some .INVALID) bc.id .succeeded], .done⟩ := by
  unfold handlePayTo
  rw [htx]
  simp only [bne_iff_ne, ne_eq, hp, not_true_eq_false, if_false, hbc, hr, hst, hrec2,
    hsen2, hart2, hnm]
  rfl

/-- C7: when a pay-to attempt finds a mined status 1 receipt none of whose
logs matches the expected transfer parameters, the pair becomes canceled
(remark invalid) for the ledger transaction and succeeded for the blockchain
transaction and the attempt terminates normally; repeating the attempt on
the resulting state deterministically reproduces the same pair with no
retry. -/
theorem c7_mismatch_resolution (env : ChainEnv) (plat : Platform)
    (receipts : List (String × TransactionReceipt)) (db : DB) (txId : Nat)
    (tx : Transaction) (bc : BlockchainTransaction) (rc : TransactionReceipt)
    (recipient sender : User) (articleDb : Article)
    (htx : db.findTransaction txId = some tx)
    (hp : tx.provider = .blockchain)
    (hbc : tx.providerTxId.bind db.findBlockchainTransactionById = some bc)
    (hr : getTransactionReceipt receipts bc.txHash = some rc)
    (hst : rc.status = 1)
    (hrec2 : plat.findUserById tx.recipientId = some recipient)
    (hsen2 : plat.findUserById tx.senderId = some sender)
    (hart2 : plat.articles.find? (fun a => a.id == tx.targetId) = some articleDb)
    (hnm : containMatchedEvent env rc.logs
        (expectedParamsOf env tx sender recipient articleDb) = false) :
    (handlePayTo env plat receipts db txId).outcome = .done
    ∧ (((handlePayTo env plat receipts db txId).db.findTransaction txId).map
        (fun t => (t.state, t.remark))) = some (.canceled, some .INVALID)
    ∧ (((handlePayTo env plat receipts db txId).db.findBlockchainTransactionById
        bc.id).map (fun b => b.state)) = some .succeeded
    ∧ handlePayTo env plat receipts (handlePayTo env plat receipts db txId).db txId
        = ⟨(handlePayTo env plat receipts db txId).db,
           [.pairedUpdate txId .canceled (some .INVALID) bc.id .succeeded], .done⟩ := by
  obtain ⟨pid, hpid, hfind⟩ := Option.bind_eq_some.mp hbc
  have hfindRaw : db.blockchainTxs.find? (fun b => b.id == pid) = some bc := hfind
  have hbeq := List.find?_some hfindRaw
  have hbcid : bc.id = pid := by simpa using hbeq
  have hfind2 : db.findBlockchainTransactionById bc.id = some bc := by
    rw [hbcid]
    exact hfind
  have hrun := payTo_mismatch_run env plat receipts db txId tx bc rc recipient sender
    articleDb htx hp hbc hr hst hrec2 hsen2 hart2 hnm
  have hdb2 : (handlePayTo env plat receipts db txId).db
      = (updateTxAndBlockchainTxState db txId .canceled (some .INVALID) bc.id
          .succeeded).1 := by
    rw [hrun]
  have htx2 : (handlePayTo env plat receipts db txId).db.findTransaction txId
      = some { tx with state := .canceled, remark := some .INVALID } := by
    rw [hdb2, updateBoth_fst, findTransaction_markBc,
      findTransaction_mark_self db txId .canceled (some .INVALID) tx htx]
  have hbc2 : (handlePayTo env plat receipts db txId).db.findBlockchainTransactionById
      bc.id = some { bc with state := .succeeded } := by
    rw [hdb2, updateBoth_fst]
    have hm : (markTransactionStateAs db txId .canceled
        (some .INVALID)).findBlockchainTransactionById bc.id = some bc := by
      rw [findBc_markTx]
      exact hfind2
    rw [findBc_mark_self _ bc.id .succeeded bc hm]
  refine ⟨by rw [hrun], by rw [htx2]; rfl, by rw [hbc2]; rfl, ?_⟩
  have hbind2 : tx.providerTxId.bind
      (handlePayTo env plat receipts db txId).db.findBlockchainTransactionById
      = some { bc with state := BLOCKCHAIN_TRANSACTION_STATE.succeeded } := by
    rw [hpid, Option.some_bind, ← hbcid]
    exact hbc2
  have hrun2 := payTo_mismatch_run env plat receipts
    (handlePayTo env plat receipts db txId).db txId
    { tx with state := .canceled, remark := some .INVALID }
    { bc with state := .succeeded } rc recipient sender articleDb
    htx2 hp hbind2 hr hst hrec2 hsen2 hart2 hnm
  rw [hrun2]
  have hidem : (updateTxAndBlockchainTxState (handlePayTo env plat receipts db txId).db
      txId .canceled (some .INVALID) bc.id .succeeded).1
      = (handlePayTo env plat receipts db txId).db := by
    rw [hdb2]
    exact updateBoth_idem db txId .canceled (some .INVALID) bc.id .succeeded
  rw [show ({ bc with state := .succeeded } : BlockchainTransaction).id = bc.id from rfl,
    hidem]

/-- C7, witness: the mismatch resolution theorem at the concrete pending
pair with a mined empty-log receipt; the second attempt reproduces the
state. -/
theorem c7_witness :
    (handlePayTo env0 plat0 [("0xh1", rc1)] db1 7).outcome = JobOutcome.done
    ∧ ((handlePayTo env0 plat0 [("0xh1", rc1)] db1 7).db.findTransaction 7).map
        (fun t => (t.state, t.remark))
        = some (TRANSACTION_STATE.canceled, some TRANSACTION_REMARK.INVALID)
    ∧ handlePayTo env0 plat0 [("0xh1", rc1)]
        (handlePayTo env0 plat0 [("0xh1", rc1)] db1 7).db 7
        = ⟨(handlePayTo env0 plat0 [("0xh1", rc1)] db1 7).db,
           [.pairedUpdate 7 .canceled (some .INVALID) 5 .succeeded], .done⟩ := by
  have h := c7_mismatch_resolution env0 plat0 [("0xh1", rc1)] db1 7 tx7 bc5 rc1 user2
    user1 art1 (by decide) (by decide) (by decide) (by decide) (by decide) (by decide)
    (by decide) (by decide) (by decide)
  exact ⟨h.1, h.2.1, h.2.2.2⟩

/-- A missing curator or creator wallet address makes the log matching
predicate reject every list of receipt logs. -/
theorem containMatchedEvent_noAddress (env : ChainEnv) (logs : List Log)
    (p : ExpectedParams)
    (h : p.curatorAddress = none ∨ p.creatorAddress = none) :
    containMatchedEvent env logs p = false := by
  unfold containMatchedEvent
  split
  · rfl
  · rw [if_pos]
    rcases h with h | h <;> simp [h, jsFalsy]

/-- C10: when the receipt is mined with status 1 and the sender or the
recipient has no stored wallet address, the matching predicate rejects every
log list, so the attempt deterministically cancels the ledger transaction as
invalid, marks the blockchain transaction succeeded, terminates without
retry, and never reaches a succeeded ledger state. -/
theorem c10_absent_wallet (env : ChainEnv) (plat : Platform)
    (receipts : List (String × TransactionReceipt)) (db : DB) (txId : Nat)
    (tx : Transaction) (bc : BlockchainTransaction) (rc : TransactionReceipt)
    (recipient sender : User) (articleDb : Article)
    (htx : db.findTransaction txId = some tx)
    (hp : tx.provider = .blockchain)
    (hbc : tx.providerTxId.bind db.findBlockchainTransactionById = some bc)
    (hr : getTransactionReceipt receipts bc.txHash = some rc)
    (hst : rc.status = 1)
    (hrec2 : plat.findUserById tx.recipientId = some recipient)
    (hsen2 : plat.findUserById tx.senderId = some sender)
    (hart2 : plat.articles.find? (fun a => a.id == tx.targetId) = some articleDb)
    (habs : sender.ethAddress = none ∨ recipient.ethAddress = none) :
    (∀ logs, containMatchedEvent env logs
        (expectedParamsOf env tx sender recipient articleDb) = false)
    ∧ (handlePayTo env plat receipts db txId).outcome = .done
    ∧ (((handlePayTo env plat receipts db txId).db.findTransaction txId).map
        (fun t => (t.state, t.remark))) = some (.canceled, some .INVALID)
    ∧ (((handlePayTo env plat receipts db txId).db.findBlockchainTransactionById
        bc.id).map (fun b => b.state)) = some .succeeded
    ∧ (((handlePayTo env plat receipts db txId).db.findTransaction txId).map
        (fun t => t.state)) ≠ some .succeeded := by
  have hforall : ∀ logs, containMatchedEvent env logs
      (expectedParamsOf env tx sender recipient articleDb) = false := by
    intro logs
    exact containMatchedEvent_noAddress env logs _ habs
  obtain ⟨pid, hpid, hfind⟩ := Option.bind_eq_some.mp hbc
  have hfindRaw : db.blockchainTxs.find? (fun b => b.id == pid) = some bc := hfind
  have hbeq := List.find?_some hfindRaw
  have hbcid : bc.id = pid := by simpa using hbeq
  have hfind2 : db.findBlockchainTransactionById bc.id = some bc := by
    rw [hbcid]
    exact hfind
  have hrun := payTo_mismatch_run env plat receipts db txId tx bc rc recipient sender
    articleDb htx hp hbc hr hst hrec2 hsen2 hart2 (hforall rc.logs)
  have hdb2 : (handlePayTo env plat receipts db txId).db
      = (updateTxAndBlockchainTxState db txId .canceled (some .INVALID) bc.id
          .succeeded).1 := by
    rw [hrun]
  have htx2 : (handlePayTo env plat receipts db txId).db.findTransaction txId
      = some { tx with state := .canceled, remark := some .INVALID } := by
    rw [hdb2, updateBoth_fst, findTransaction_markBc,
      findTransaction_mark_self db txId .canceled (some .INVALID) tx htx]
  have hbc2 : (handlePayTo env plat receipts db txId).db.findBlockchainTransactionById
      bc.id = some { bc with state := .succeeded } := by
    rw [hdb2, updateBoth_fst]
    have hm : (markTransactionStateAs db txId .canceled
        (some .INVALID)).findBlockchainTransactionById bc.id = some bc := by
      rw [findBc_markTx]
      exact hfind2
    rw [findBc_mark_self _ bc.id .succeeded bc hm]
  refine ⟨hforall, by rw [hrun], by rw [htx2]; rfl, by rw [hbc2]; rfl, ?_⟩
  rw [htx2]
  simp

/-- C10, witness: the absent wallet theorem where the recipient lacks a
wallet address; even a receipt holding a log that would otherwise match is
rejected and the pair settles on canceled and succeeded. -/
theorem c10_witness :
    containMatchedEvent env0 rcM.logs
      (expectedParamsOf env0 tx7 user1 user2n art1) = false
    ∧ (handlePayTo env0 platNoWallet [("0xh1", rcM)] db1 7).outcome = JobOutcome.done
    ∧ ((handlePayTo env0 platNoWallet [("0xh1", rcM)] db1 7).db.findTransaction 7).map
        (fun t => (t.state, t.remark))
        = some (TRANSACTION_STATE.canceled, some TRANSACTION_REMARK.INVALID) := by
  have h := c10_absent_wallet env0 platNoWallet [("0xh1", rcM)] db1 7 tx7 bc5 rcM user2n
    user1 art1 (by decide) (by decide) (by decide) (by decide) (by decide) (by decide)
    (by decide) (by decide) (Or.inr (by decide))
  exact ⟨h.1 rcM.logs, h.2.1, h.2.2.1⟩

/-- Repointing the blockchain link leaves the ledger table unchanged. -/
theorem findTransaction_repoint (db : DB) (i j k : Nat) :
    (repointBlockchainTransaction db i j).findTransaction k = db.findTransaction k := rfl

/-- Creating a ledger transaction leaves the blockchain table unchanged. -/
theorem findBc_create (db : DB) (nt : NewTransaction) (k : Nat) :
    (createTransaction db nt).2.findBlockchainTransactionById k
      = db.findBlockchainTransactionById k := rfl

/-- The ledger table after a create is the old table with the new row. -/
theorem txs_create (db : DB) (nt : NewTransaction) :
    (createTransaction db nt).2.txs = db.txs ++ [(createTransaction db nt).1] := rfl

/-- Looking up the repointed blockchain transaction after a repoint. -/
theorem findBc_repoint_self (db : DB) (i j : Nat) (bc2 : BlockchainTransaction)
    (h : db.findBlockchainTransactionById i = some bc2) :
    (repointBlockchainTransaction db i j).findBlockchainTransactionById i
      = some { bc2 with transactionId := some j } := by
  have hsome := List.find?_some h
  unfold DB.findBlockchainTransactionById repointBlockchainTransaction
  rw [find?_map_pred _ _ ?hp]
  case hp =>
    intro a
    by_cases ha : (a.id == i) = true
    · simp [ha]
    · simp [ha]
  unfold DB.findBlockchainTransactionById at h
  rw [h]
  simp only [Option.map_some']
  rw [if_pos hsome]

/-- A surviving blockchain row lookup derived from a lookup by hash. -/
theorem findBcId_of_findByHash (db : DB) (h : String) (bc : BlockchainTransaction)
    (hf : db.findBlockchainTransactionByHash h = some bc) :
    ∃ bc2, db.findBlockchainTransactionById bc.id = some bc2 := by
  have hmem : bc ∈ db.blockchainTxs := List.mem_of_find?_eq_some hf
  have hs : (db.blockchainTxs.find? (fun b => b.id == bc.id)).isSome := by
    rw [List.find?_isSome]
    exact ⟨bc, hmem, by simp⟩
  obtain ⟨bc2, hbc2⟩ := Option.isSome_iff_exists.mp hs
  exact ⟨bc2, hbc2⟩

/-- Looking up an existing ledger transaction after a create. -/
theorem findTransaction_create_left (db : DB) (nt : NewTransaction) (k : Nat)
    (tx2 : Transaction) (h : db.findTransaction k = some tx2) :
    (createTransaction db nt).2.findTransaction k = some tx2 := by
  show ((db.txs ++ [(createTransaction db nt).1]).find? (fun t => t.id == k)) = some tx2
  exact find?_append_left _ _ _ _ h

/-- Looking up the freshly created ledger transaction after a create. -/
theorem findTransaction_create_new (db : DB) (nt : NewTransaction) (k : Nat)
    (hk : k = db.nextTxId) (h : db.findTransaction k = none) :
    (createTransaction db nt).2.findTransaction k = some (createTransaction db nt).1 := by
  show ((db.txs ++ [(createTransaction db nt).1]).find? (fun t => t.id == k)) = _
  rw [find?_append_none _ _ _ h]
  subst hk
  simp [createTransaction]

/-- A ledger mark keeps an absent row absent. -/
theorem findTransaction_mark_none (db : DB) (i : Nat) (st : TRANSACTION_STATE)
    (rm : Option TRANSACTION_REMARK) (k : Nat) (h : db.findTransaction k = none) :
    (markTransactionStateAs db i st rm).findTransaction k = none := by
  unfold DB.findTransaction markTransactionStateAs
  rw [find?_map_pred _ _ ?hp]
  case hp =>
    intro a
    by_cases hc : (a.id == i) = true
    · rw [if_pos hc]
    · rw [if_neg hc]
  unfold DB.findTransaction at h
  rw [h]
  rfl

/-- C8: when an addition event decodes to a valid in-platform donation and
the linked LedgerTransaction disagrees with the decoded sender, recipient,
target or amount, one atomic store transaction cancels the stale row with
remark invalid, creates a new succeeded row carrying the decoded values, and
repoints the BlockchainTransaction link to the new row; if any of the three
steps fails, the whole unit rolls back and the database is unchanged. -/
theorem c8_supersede_atomic (env : ChainEnv) (plat : Platform)
    (receipts : List (String × TransactionReceipt)) (db : DB) (e : CurationEvent)
    (plan : FailPlan) (bc : BlockchainTransaction) (cu cr : User) (ar : Article)
    (txid : Nat) (tx : Transaction)
    (hrm : e.removed = false)
    (hbc : db.findBlockchainTransactionByHash e.transactionHash = some bc)
    (hskip : (bc.transactionId.isSome && bc.state == .succeeded) = false)
    (hdec : decodeDonation env plat (curationRowOf env e bc.id) = some (cu, cr, ar))
    (hlink : bc.transactionId = some txid)
    (htx : db.findTransaction txid = some tx)
    (hmis : (tx.senderId == cu.id && tx.recipientId == cr.id && tx.targetId == ar.id
        && (toTokenBaseUnit tx.amount env.USDTContractDecimals == e.args.amount))
        = false)
    (hfresh : db.findTransaction db.nextTxId = none) :
    ((plan.failMark || plan.failCreate || plan.failRepoint) = true →
       (processCurationEvent env plat receipts db e plan).db = db
       ∧ (processCurationEvent env plat receipts db e plan).crashed = true)
    ∧ (plan = noFail →
       (processCurationEvent env plat receipts db e plan).crashed = false
       ∧ ((processCurationEvent env plat receipts db e plan).db.findTransaction txid).map
           (fun t => (t.state, t.remark)) = some (.canceled, some .INVALID)
       ∧ (processCurationEvent env plat receipts db e plan).db.findTransaction db.nextTxId
           = some { id := db.nextTxId
                    state := .succeeded
                    remark := none
                    purpose := .donation
                    currency := .USDT
                    provider := .blockchain
                    providerTxId := some bc.id
                    senderId := cu.id
                    recipientId := cr.id
                    targetId := ar.id
                    amount := fromTokenBaseUnit e.args.amount env.USDTContractDecimals }
       ∧ ((processCurationEvent env plat receipts db e
             plan).db.findBlockchainTransactionById bc.id).map (fun b => b.transactionId)
           = some (some db.nextTxId)) := by
  have htxRaw : db.txs.find? (fun t => t.id == txid) = some tx := htx
  have htxid : tx.id = txid := by
    have := List.find?_some htxRaw
    simpa using this
  subst htxid
  have hskip2 : (bc.state == BLOCKCHAIN_TRANSACTION_STATE.succeeded) = false := by
    rw [hlink] at hskip
    simpa using hskip
  obtain ⟨bc2, hbc2⟩ := findBcId_of_findByHash db e.transactionHash bc hbc
  constructor
  · intro hfail
    constructor <;>
      simp [processCurationEvent, hrm, processAddition, findOrCreateBlockchainTransaction,
        hbc, hlink, hskip2, hdec, htx, hmis, hfail]
  · rintro rfl
    have hplan : (noFail.failMark || noFail.failCreate || noFail.failRepoint) = false := rfl
    refine ⟨?_, ?_, ?_, ?_⟩
    · simp [processCurationEvent, hrm, processAddition, findOrCreateBlockchainTransaction,
        hbc, hlink, hskip2, hdec, htx, hmis, hplan, noFail]
    · simp only [processCurationEvent, hrm, Bool.not_false, if_true, processAddition,
        findOrCreateBlockchainTransaction, hbc, hlink, hskip2, hdec, htx, hmis, hplan,
        noFail, Option.isSome_some, Bool.true_and, Bool.false_eq_true, if_false,
        Option.some.injEq]
      rw [if_neg (by decide : ¬ ((false || false || false) = true))]
      rw [findTransaction_repoint,
        findTransaction_create_left _ _ _ _
          (findTransaction_mark_self db tx.id .canceled (some .INVALID) tx htx)]
      rfl
    · simp only [processCurationEvent, hrm, Bool.not_false, if_true, processAddition,
        findOrCreateBlockchainTransaction, hbc, hlink, hskip2, hdec, htx, hmis, hplan,
        noFail, Option.isSome_some, Bool.true_and, Bool.false_eq_true, if_false,
        Option.some.injEq]
      rw [if_neg (by decide : ¬ ((false || false || false) = true))]
      rw [findTransaction_repoint,
        findTransaction_create_new _ _ db.nextTxId (by rfl)
          (findTransaction_mark_none db tx.id .canceled (some .INVALID) db.nextTxId hfresh)]
      rfl
    · simp only [processCurationEvent, hrm, Bool.not_false, if_true, processAddition,
        findOrCreateBlockchainTransaction, hbc, hlink, hskip2, hdec, htx, hmis, hplan,
        noFail, Option.isSome_some, Bool.true_and, Bool.false_eq_true, if_false,
        Option.some.injEq]
      have hm : (createTransaction
          (markTransactionStateAs db tx.id .canceled (some .INVALID))
          { amount := fromTokenBaseUnit e.args.amount env.USDTContractDecimals
            state := .succeeded
            purpose := .donation
            currency := .USDT
            provider := .blockchain
            providerTxId := some bc.id
            recipientId := cr.id
            senderId := cu.id
            targetId := ar.id }).2.findBlockchainTransactionById bc.id = some bc2 := by
        rw [findBc_create, findBc_markTx]
        exact hbc2
      rw [if_neg (by decide : ¬ ((false || false || false) = true))]
      rw [findBc_repoint_self _ bc.id _ bc2 hm]
      rfl

/-- C8, witness: the supersede theorem at the concrete mismatched pair; a
failing create step leaves the database untouched, and the non failing run
cancels the stale row, creates the new succeeded row and repoints the link. -/
theorem c8_witness :
    ((processCurationEvent env0 plat0 [] db1m evA ⟨false, true, false⟩).db = db1m
      ∧ (processCurationEvent env0 plat0 [] db1m evA ⟨false, true, false⟩).crashed = true)
    ∧ ((processCurationEvent env0 plat0 [] db1m evA noFail).db.findTransaction 7).map
        (fun t => (t.state, t.remark))
        = some (TRANSACTION_STATE.canceled, some TRANSACTION_REMARK.INVALID)
    ∧ (processCurationEvent env0 plat0 [] db1m evA noFail).db.findTransaction 100
        = some ⟨100, .succeeded, none, .donation, .USDT, .blockchain, some 5, 1, 2, 10,
            fromTokenBaseUnit 1000 2⟩
    ∧ ((processCurationEvent env0 plat0 [] db1m evA
          noFail).db.findBlockchainTransactionById 5).map (fun b => b.transactionId)
        = some (some 100) := by
  have hf := c8_supersede_atomic env0 plat0 [] db1m evA ⟨false, true, false⟩ bc5 user1
    user2 art1 7 tx7m (by decide) (by decide) (by decide) (by decide) (by decide)
    (by decide) (by decide) (by decide)
  have hs := c8_supersede_atomic env0 plat0 [] db1m evA noFail bc5 user1 user2 art1 7
    tx7m (by decide) (by decide) (by decide) (by decide) (by decide) (by decide)
    (by decide) (by decide)
  have h1 := hf.1 (by decide)
  have h2 := hs.2 rfl
  exact ⟨⟨h1.1, h1.2⟩, h2.2.1, h2.2.2.1, h2.2.2.2⟩

/-- Processing one curation event never touches the sync cursor. -/
theorem syncRecord_processCurationEvent (env : ChainEnv) (plat : Platform)
    (receipts : List (String × TransactionReceipt)) (db : DB) (e : CurationEvent)
    (plan : FailPlan) :
    (processCurationEvent env plat receipts db e plan).db.syncRecord = db.syncRecord := by
  unfold processCurationEvent processAddition processRemoval
    findOrCreateBlockchainTransaction markTransactionStateAs createTransaction
    repointBlockchainTransaction resetBothTxAndBlockchainTx failBothTxAndBlockchainTx
    succeedBothTxAndBlockchainTx updateTxAndBlockchainTxState
    markBlockchainTransactionStateAs
  dsimp only
  repeat' split
  all_goals rfl

/-- The event loop never touches the sync cursor. -/
theorem syncRecord_aux (env : ChainEnv) (plat : Platform)
    (receipts : List (String × TransactionReceipt)) :
    ∀ (events : List CurationEvent) (db : DB),
    (syncCurationEventsAux env plat receipts db events).1.syncRecord = db.syncRecord := by
  intro events
  induction events with
  | nil => intro db; rfl
  | cons e rest ih =>
    intro db
    unfold syncCurationEventsAux
    dsimp only
    split
    · exact syncRecord_processCurationEvent env plat receipts db e noFail
    · rw [ih]
      exact syncRecord_processCurationEvent env plat receipts db e noFail

/-- A batch of `syncCurationEvents` never touches the sync cursor. -/
theorem syncRecord_syncCurationEvents (env : ChainEnv) (plat : Platform)
    (receipts : List (String × TransactionReceipt)) (db : DB)
    (events : List CurationEvent) :
    (syncCurationEvents env plat receipts db events).db.syncRecord = db.syncRecord := by
  unfold syncCurationEvents
  dsimp only
  split
  · exact syncRecord_aux env plat receipts events db
  · exact syncRecord_aux env plat receipts events db

/-- Every element reached by getLast is a member of the list. -/
theorem mem_of_getLast? {α : Type} : ∀ (l : List α) (a : α), l.getLast? = some a → a ∈ l := by
  intro l
  induction l with
  | nil => intro a h; cases h
  | cons x t ih =>
    intro a h
    cases t with
    | nil =>
      simp [List.getLast?] at h
      simp [h]
    | cons y s =>
      rw [List.getLast?_cons_cons] at h
      exact List.mem_cons_of_mem x (ih a h)

/-- Step facts of one synchronizer run: the ranged query starts at
cursor + 1, an existing cursor moves only to the capped range bound, and a
catch-up run leaves the cursor absent or below the safe height. -/
theorem syncRun_cursor (env : ChainEnv) (plat : Platform)
    (receipts : List (String × TransactionReceipt))
    (chainEvents : List CurationEvent) (height : Int) (db : DB) :
    (∀ c, db.syncRecord = some c →
       (handleSyncCurationEvents env plat receipts chainEvents height db).queriedRange
         = some (c + 1, min (height - env.safeConfirms) (c + 1 + 1999)))
    ∧ (∀ c, db.syncRecord = some c →
       ((handleSyncCurationEvents env plat receipts chainEvents height db).db.syncRecord
           = some c
        ∨ (handleSyncCurationEvents env plat receipts chainEvents height db).db.syncRecord
           = some (min (height - env.safeConfirms) (c + 1 + 1999))))
    ∧ (db.syncRecord = none →
       ((handleSyncCurationEvents env plat receipts chainEvents height db).db.syncRecord
           = none
        ∨ ∃ c2, (handleSyncCurationEvents env plat receipts chainEvents height
             db).db.syncRecord = some c2 ∧ c2 ≤ height - env.safeConfirms)) := by
  refine ⟨?_, ?_, ?_⟩
  · intro c hc
    simp only [handleSyncCurationEvents, hc]
    split <;> rfl
  · intro c hc
    simp only [handleSyncCurationEvents, hc]
    split
    · left
      rw [syncRecord_syncCurationEvents]
      exact hc
    · right
      rfl
  · intro hc
    simp only [handleSyncCurationEvents, hc]
    split
    · left
      rw [syncRecord_syncCurationEvents]
      exact hc
    · split
      · right
        exact ⟨height - env.safeConfirms, rfl, le_refl _⟩
      · split
        · left
          rw [syncRecord_syncCurationEvents]
          exact hc
        · next last hlast =>
          right
          refine ⟨last.blockNumber, rfl, ?_⟩
          have hmem := mem_of_getLast? _ _ hlast
          rw [List.mem_filter] at hmem
          have := hmem.2
          simpa using this

/-- Sequence lemma for the synchronizer: with non decreasing chain heights
and a start cursor below the first safe height (or absent), the persisted
cursor never decreases and every ranged query starts at cursor + 1. -/
theorem c9_aux (env : ChainEnv) :
    ∀ (runs : List SyncRunInput) (db : DB),
    List.Chain' (fun a b => a.height ≤ b.height) runs →
    (∀ c, db.syncRecord = some c →
      ∀ i ∈ runs.head?, c ≤ i.height - env.safeConfirms) →
    List.Chain' (fun a b => cursorLEb a b = true)
        (db.syncRecord :: (runSyncSequence env db runs).map RunRecord.postCursor)
    ∧ (runSyncSequence env db runs).all fromBlockOK = true := by
  intro runs
  induction runs with
  | nil =>
    intro db _ _
    exact ⟨List.chain'_singleton _, rfl⟩
  | cons i rest ih =>
    intro db hchain hinv
    obtain ⟨hhead, hchain2⟩ := List.chain'_cons'.mp hchain
    obtain ⟨hrange, hsome, hnone⟩ :=
      syncRun_cursor env i.plat i.receipts i.chainEvents i.height db
    set r := handleSyncCurationEvents env i.plat i.receipts i.chainEvents i.height db
      with hr
    have key : runSyncSequence env db (i :: rest)
        = ⟨db.syncRecord, r.queriedRange, r.db.syncRecord⟩
            :: runSyncSequence env r.db rest := rfl
    have hpost : ∀ c2, r.db.syncRecord = some c2 →
        ∀ j ∈ rest.head?, c2 ≤ j.height - env.safeConfirms := by
      intro c2 hc2 j hj
      have hij : i.height ≤ j.height := hhead j hj
      rcases hpre : db.syncRecord with _ | c
      · rcases hnone hpre with h | ⟨c3, hc3, hle⟩
        · rw [hc2] at h
          cases h
        · rw [hc2] at hc3
          obtain rfl := Option.some.inj hc3
          omega
      · have hci : c ≤ i.height - env.safeConfirms := hinv c hpre i rfl
        rcases hsome c hpre with h | h
        · rw [hc2] at h
          obtain rfl := Option.some.inj h
          omega
        · rw [hc2] at h
          obtain rfl := Option.some.inj h
          calc min (i.height - env.safeConfirms) (c + 1 + 1999)
              ≤ i.height - env.safeConfirms := min_le_left _ _
            _ ≤ j.height - env.safeConfirms := by omega
    have hstep : cursorLEb db.syncRecord r.db.syncRecord = true := by
      rcases hpre : db.syncRecord with _ | c
      · rfl
      · have hci : c ≤ i.height - env.safeConfirms := hinv c hpre i rfl
        rcases hsome c hpre with h | h <;> rw [h]
        · simp [cursorLEb]
        · simp only [cursorLEb, decide_eq_true_eq]
          exact le_min hci (by omega)
    have hfb : fromBlockOK ⟨db.syncRecord, r.queriedRange, r.db.syncRecord⟩ = true := by
      rcases hpre : db.syncRecord with _ | c
      · rfl
      · rw [hrange c hpre]
        simp [fromBlockOK]
    obtain ⟨ihchain, ihall⟩ := ih r.db hchain2 hpost
    constructor
    · rw [key, List.map_cons, List.chain'_cons]
      exact ⟨hstep, ihchain⟩
    · rw [key, List.all_cons, Bool.and_eq_true]
      exact ⟨hfb, ihall⟩

/-- C9: for every sequence of synchronizer runs against a chain whose
reported height is non decreasing, starting with no persisted cursor, the
persisted cursor values never decrease across commits, and every run with a
persisted cursor issues its ranged query starting exactly at cursor + 1. -/
theorem c9_cursor_monotone (env : ChainEnv) (db : DB) (runs : List SyncRunInput)
    (hmono : List.Chain' (fun a b => a.height ≤ b.height) runs)
    (hinit : db.syncRecord = none) :
    List.Chain' (fun a b => cursorLEb a b = true)
        (db.syncRecord :: (runSyncSequence env db runs).map RunRecord.postCursor)
    ∧ (runSyncSequence env db runs).all fromBlockOK = true := by
  refine c9_aux env runs db hmono ?_
  intro c hc
  rw [hinit] at hc
  cases hc

/-- C9, witness: the monotonicity theorem on a concrete three run
sequence. -/
theorem c9_witness :
    List.Chain' (fun a b => cursorLEb a b = true)
        (db0.syncRecord :: (runSyncSequence env0 db0 runs0).map RunRecord.postCursor)
    ∧ (runSyncSequence env0 db0 runs0).all fromBlockOK = true := by
  refine c9_cursor_monotone env0 db0 runs0 ?_ (by decide)
  simp only [runs0, List.chain'_cons, List.chain'_singleton, and_true]
  exact ⟨by decide, by decide⟩

/-- Replacing the rows of a key by one row of the same key preserves every
key count. -/
theorem keyCount_map_replace (t : List CurationEventRow) (row : CurationEventRow)
    (k : Nat) :
    keyCount (t.map (fun x =>
      if x.blockchainTransactionId == row.blockchainTransactionId then row else x)) k
      = keyCount t k := by
  unfold keyCount
  rw [List.countP_map]
  apply List.countP_congr
  intro a _
  by_cases ha : (a.blockchainTransactionId == row.blockchainTransactionId) = true
  · have heq : a.blockchainTransactionId = row.blockchainTransactionId := by simpa using ha
    simp only [Function.comp_apply, if_pos ha]
    rw [heq]
  · simp only [Function.comp_apply, if_neg ha]

/-- Key counts of a one row append. -/
theorem keyCount_append_single (t : List CurationEventRow) (row : CurationEventRow)
    (k : Nat) :
    keyCount (t ++ [row]) k
      = keyCount t k + (if (row.blockchainTransactionId == k) = true then 1 else 0) := by
  unfold keyCount
  rw [List.countP_append]
  congr 1
  by_cases h : (row.blockchainTransactionId == k) = true
  · simp [List.countP_cons, h]
  · simp [List.countP_cons, h]

/-- An upsert keeps every key count at most one. -/
theorem keyCount_upsert_le_one (t : List CurationEventRow) (row : CurationEventRow)
    (k : Nat) (h : keyCount t k ≤ 1) :
    keyCount (upsertCurationEventRow t row) k ≤ 1 := by
  unfold upsertCurationEventRow
  split
  · rw [keyCount_map_replace]
    exact h
  · next hany =>
    rw [keyCount_append_single]
    by_cases hk : (row.blockchainTransactionId == k) = true
    · have hzero : keyCount t k = 0 := by
        unfold keyCount
        rw [List.countP_eq_zero]
        intro a ha hcon
        apply hany
        rw [List.any_eq_true]
        refine ⟨a, ha, ?_⟩
        have h1 : a.blockchainTransactionId = k := by simpa using hcon
        have h2 : row.blockchainTransactionId = k := by simpa using hk
        simp [h1, h2]
      rw [hzero, if_pos hk]
    · rw [if_neg hk]
      omega

/-- An upsert never decreases a key count. -/
theorem keyCount_upsert_mono (t : List CurationEventRow) (row : CurationEventRow)
    (k : Nat) :
    keyCount t k ≤ keyCount (upsertCurationEventRow t row) k := by
  unfold upsertCurationEventRow
  split
  · rw [keyCount_map_replace]
  · rw [keyCount_append_single]
    omega

/-- After an upsert the upserted key is present. -/
theorem keyCount_upsert_pos (t : List CurationEventRow) (row : CurationEventRow) :
    1 ≤ keyCount (upsertCurationEventRow t row) row.blockchainTransactionId := by
  unfold upsertCurationEventRow
  split
  · next hany =>
    rw [keyCount_map_replace]
    rw [List.any_eq_true] at hany
    obtain ⟨a, ha, hpa⟩ := hany
    unfold keyCount
    rw [Nat.succ_le, List.countP_pos_iff]
    refine ⟨a, ha, ?_⟩
    have : a.blockchainTransactionId = row.blockchainTransactionId := by simpa using hpa
    simp [this]
  · rw [keyCount_append_single]
    simp

/-- A batch upsert keeps every key count at most one. -/
theorem keyCount_batch_le_one :
    ∀ (rows : List CurationEventRow) (t : List CurationEventRow) (k : Nat),
    keyCount t k ≤ 1 → keyCount (batchUpsertCurationEvents t rows) k ≤ 1 := by
  intro rows
  induction rows with
  | nil => intro t k h; exact h
  | cons r rs ih =>
    intro t k h
    exact ih (upsertCurationEventRow t r) k (keyCount_upsert_le_one t r k h)

/-- A batch upsert never decreases a key count. -/
theorem keyCount_batch_mono :
    ∀ (rows : List CurationEventRow) (t : List CurationEventRow) (k : Nat),
    keyCount t k ≤ keyCount (batchUpsertCurationEvents t rows) k := by
  intro rows
  induction rows with
  | nil => intro t k; exact le_refl _
  | cons r rs ih =>
    intro t k
    exact le_trans (keyCount_upsert_mono t r k) (ih (upsertCurationEventRow t r) k)

/-- After a batch upsert every upserted key is present. -/
theorem keyCount_batch_pos :
    ∀ (rows : List CurationEventRow) (t : List CurationEventRow)
      (row : CurationEventRow), row ∈ rows →
    1 ≤ keyCount (batchUpsertCurationEvents t rows) row.blockchainTransactionId := by
  intro rows
  induction rows with
  | nil => intro t row h; cases h
  | cons r rs ih =>
    intro t row h
    rcases List.mem_cons.mp h with rfl | h2
    · exact le_trans (keyCount_upsert_pos t row)
        (keyCount_batch_mono rs (upsertCurationEventRow t row) row.blockchainTransactionId)
    · exact ih (upsertCurationEventRow t r) row h2

/-- A ledger mark does not touch the hash to id mapping. -/
theorem bcIdx_markTx (db : DB) (i : Nat) (st : TRANSACTION_STATE)
    (rm : Option TRANSACTION_REMARK) (h : String) :
    bcIdx (markTransactionStateAs db i st rm) h = bcIdx db h := rfl

/-- A ledger create does not touch the hash to id mapping. -/
theorem bcIdx_create (db : DB) (nt : NewTransaction) (h : String) :
    bcIdx (createTransaction db nt).2 h = bcIdx db h := rfl

/-- A blockchain state mark does not touch the hash to id mapping. -/
theorem bcIdx_markBc (db : DB) (i : Nat) (s : BLOCKCHAIN_TRANSACTION_STATE)
    (h : String) :
    bcIdx (markBlockchainTransactionStateAs db i s) h = bcIdx db h := by
  unfold bcIdx DB.findBlockchainTransactionByHash markBlockchainTransactionStateAs
  rw [find?_map_pred _ _ ?hp]
  case hp =>
    intro b
    by_cases hb : (b.id == i) = true
    · rw [if_pos hb]
    · rw [if_neg hb]
  rcases hf : db.blockchainTxs.find? (fun b => b.txHash == h) with _ | b
  · rw [hf]
    rfl
  · rw [hf]
    simp only [Option.map_some']
    by_cases hb : (b.id == i) = true
    · rw [if_pos hb]
    · rw [if_neg hb]

/-- A link repoint does not touch the hash to id mapping. -/
theorem bcIdx_repoint (db : DB) (i j : Nat) (h : String) :
    bcIdx (repointBlockchainTransaction db i j) h = bcIdx db h := by
  unfold bcIdx DB.findBlockchainTransactionByHash repointBlockchainTransaction
  rw [find?_map_pred _ _ ?hp]
  case hp =>
    intro b
    by_cases hb : (b.id == i) = true
    · rw [if_pos hb]
    · rw [if_neg hb]
  rcases hf : db.blockchainTxs.find? (fun b => b.txHash == h) with _ | b
  · rw [hf]
    rfl
  · rw [hf]
    simp only [Option.map_some']
    by_cases hb : (b.id == i) = true
    · rw [if_pos hb]
    · rw [if_neg hb]

/-- The shared state transition helper does not touch the hash to id
mapping. -/
theorem bcIdx_updateBoth (db : DB) (a : Nat) (b : TRANSACTION_STATE)
    (c : Option TRANSACTION_REMARK) (d : Nat) (e : BLOCKCHAIN_TRANSACTION_STATE)
    (h : String) :
    bcIdx (updateTxAndBlockchainTxState db a b c d e).1 h = bcIdx db h := by
  rw [updateBoth_fst, bcIdx_markBc, bcIdx_markTx]

/-- Find or create preserves every existing hash to id mapping. -/
theorem bcIdx_findOrCreate_mono (db : DB) (hash : String)
    (s : BLOCKCHAIN_TRANSACTION_STATE) (h : String) (k : Nat)
    (hk : bcIdx db h = some k) :
    bcIdx (findOrCreateBlockchainTransaction db hash s).2.1 h = some k := by
  unfold findOrCreateBlockchainTransaction
  split
  · exact hk
  · unfold bcIdx DB.findBlockchainTransactionByHash at *
    dsimp only
    rcases hf : db.blockchainTxs.find? (fun b => b.txHash == h) with _ | b
    · rw [hf] at hk
      cases hk
    · rw [find?_append_left _ _ _ _ hf]
      rw [hf] at hk
      exact hk

/-- After find or create, the queried hash maps to the returned row id. -/
theorem bcIdx_findOrCreate_self (db : DB) (hash : String)
    (s : BLOCKCHAIN_TRANSACTION_STATE) :
    bcIdx (findOrCreateBlockchainTransaction db hash s).2.1 hash
      = some (findOrCreateBlockchainTransaction db hash s).1.id := by
  unfold findOrCreateBlockchainTransaction
  split
  · next bc hf =>
    unfold bcIdx
    rw [hf]
    rfl
  · next hf =>
    unfold bcIdx DB.findBlockchainTransactionByHash at *
    dsimp only
    rw [find?_append_none _ _ _ hf]
    simp

/-- Processing any curation event preserves every existing hash to id
mapping. -/
theorem bcIdx_process_mono (env : ChainEnv) (plat : Platform)
    (receipts : List (String × TransactionReceipt)) (db : DB) (e : CurationEvent)
    (plan : FailPlan) (h : String) (k : Nat)
    (hk : bcIdx db h = some k) :
    bcIdx (processCurationEvent env plat receipts db e plan).db h = some k := by
  unfold processCurationEvent processAddition processRemoval
  dsimp only
  repeat' split
  all_goals
    simp only [resetBothTxAndBlockchainTx, failBothTxAndBlockchainTx,
      succeedBothTxAndBlockchainTx, bcIdx_updateBoth, bcIdx_markTx, bcIdx_create,
      bcIdx_repoint]
  all_goals exact bcIdx_findOrCreate_mono db e.transactionHash _ h k hk

/-- Processing an addition event pushes exactly one mirror row, keyed by the
id now recorded for the event hash. -/
theorem process_rows_key (env : ChainEnv) (plat : Platform)
    (receipts : List (String × TransactionReceipt)) (db : DB) (e : CurationEvent)
    (plan : FailPlan) (hrm : e.removed = false) :
    ∃ k, ((processCurationEvent env plat receipts db e plan).rows.map
        (fun r => r.blockchainTransactionId)) = [k]
      ∧ bcIdx (processCurationEvent env plat receipts db e plan).db e.transactionHash
          = some k := by
  refine ⟨(findOrCreateBlockchainTransaction db e.transactionHash .succeeded).1.id,
    ?_, ?_⟩
  · simp only [processCurationEvent, hrm, Bool.not_false, if_true]
    unfold processAddition
    dsimp only
    repeat' split
    all_goals rfl
  · simp only [processCurationEvent, hrm, Bool.not_false, if_true]
    unfold processAddition
    dsimp only
    repeat' split
    all_goals
      simp only [resetBothTxAndBlockchainTx, failBothTxAndBlockchainTx,
        succeedBothTxAndBlockchainTx, bcIdx_updateBoth, bcIdx_markTx, bcIdx_create,
        bcIdx_repoint]
    all_goals exact bcIdx_findOrCreate_self db e.transactionHash .succeeded

/-- Processing one curation event never touches the mirror table (rows are
only batch committed at the end of the loop). -/
theorem curationEvents_process (env : ChainEnv) (plat : Platform)
    (receipts : List (String × TransactionReceipt)) (db : DB) (e : CurationEvent)
    (plan : FailPlan) :
    (processCurationEvent env plat receipts db e plan).db.curationEvents
      = db.curationEvents := by
  unfold processCurationEvent processAddition processRemoval
    findOrCreateBlockchainTransaction markTransactionStateAs createTransaction
    repointBlockchainTransaction resetBothTxAndBlockchainTx failBothTxAndBlockchainTx
    succeedBothTxAndBlockchainTx updateTxAndBlockchainTxState
    markBlockchainTransactionStateAs
  dsimp only
  repeat' split
  all_goals rfl

/-- The event loop never touches the mirror table. -/
theorem curationEvents_aux (env : ChainEnv) (plat : Platform)
    (receipts : List (String × TransactionReceipt)) :
    ∀ (events : List CurationEvent) (db : DB),
    (syncCurationEventsAux env plat receipts db events).1.curationEvents
      = db.curationEvents := by
  intro events
  induction events with
  | nil => intro db; rfl
  | cons e rest ih =>
    intro db
    unfold syncCurationEventsAux
    dsimp only
    split
    · exact curationEvents_process env plat receipts db e noFail
    · rw [ih]
      exact curationEvents_process env plat receipts db e noFail

/-- The event loop preserves every existing hash to id mapping. -/
theorem bcIdx_aux_mono (env : ChainEnv) (plat : Platform)
    (receipts : List (String × TransactionReceipt)) :
    ∀ (events : List CurationEvent) (db : DB) (h : String) (k : Nat),
    bcIdx db h = some k →
    bcIdx (syncCurationEventsAux env plat receipts db events).1 h = some k := by
  intro events
  induction events with
  | nil => intro db h k hk; exact hk
  | cons e rest ih =>
    intro db h k hk
    unfold syncCurationEventsAux
    dsimp only
    split
    · exact bcIdx_process_mono env plat receipts db e noFail h k hk
    · exact ih _ h k (bcIdx_process_mono env plat receipts db e noFail h k hk)

/-- The crash flag of a batch run is the crash flag of its event loop. -/
theorem crashed_sync_eq (env : ChainEnv) (plat : Platform)
    (receipts : List (String × TransactionReceipt)) (db : DB)
    (events : List CurationEvent) :
    (syncCurationEvents env plat receipts db events).crashed
      = (syncCurationEventsAux env plat receipts db events).2.2.2 := by
  unfold syncCurationEvents
  dsimp only
  split
  · next h => rw [h]
  · next h =>
    rw [Bool.not_eq_true] at h
    rw [h]

/-- The database of a batch run that did not crash: the loop result with the
mirror rows batch upserted. -/
theorem sync_db_eq (env : ChainEnv) (plat : Platform)
    (receipts : List (String × TransactionReceipt)) (db : DB)
    (events : List CurationEvent)
    (hc : (syncCurationEventsAux env plat receipts db events).2.2.2 = false) :
    (syncCurationEvents env plat receipts db events).db
      = { (syncCurationEventsAux env plat receipts db events).1 with
          curationEvents := batchUpsertCurationEvents
            (syncCurationEventsAux env plat receipts db events).1.curationEvents
            (syncCurationEventsAux env plat receipts db events).2.1 } := by
  unfold syncCurationEvents
  dsimp only
  split
  · next h =>
    rw [h] at hc
    cases hc
  · rfl

/-- A batch run preserves every existing hash to id mapping. -/
theorem bcIdx_sync_mono (env : ChainEnv) (plat : Platform)
    (receipts : List (String × TransactionReceipt)) (db : DB)
    (events : List CurationEvent) (h : String) (k : Nat)
    (hk : bcIdx db h = some k) :
    bcIdx (syncCurationEvents env plat receipts db events).db h = some k := by
  unfold syncCurationEvents
  dsimp only
  split
  · exact bcIdx_aux_mono env plat receipts events db h k hk
  · show bcIdx (syncCurationEventsAux env plat receipts db events).1 h = some k
    exact bcIdx_aux_mono env plat receipts events db h k hk

/-- Every addition event of a non crashing loop run contributes a mirror row
whose key is the id recorded for its hash at the end of the loop. -/
theorem aux_rows_cover (env : ChainEnv) (plat : Platform)
    (receipts : List (String × TransactionReceipt)) :
    ∀ (events : List CurationEvent) (db : DB),
    (∀ e ∈ events, e.removed = false) →
    (syncCurationEventsAux env plat receipts db events).2.2.2 = false →
    ∀ e ∈ events, ∃ k,
      k ∈ ((syncCurationEventsAux env plat receipts db events).2.1.map
            (fun r => r.blockchainTransactionId))
      ∧ bcIdx (syncCurationEventsAux env plat receipts db events).1 e.transactionHash
          = some k := by
  intro events
  induction events with
  | nil =>
    intro db _ _ e he
    cases he
  | cons e0 rest ih =>
    intro db hadd hcrash e he
    rw [show syncCurationEventsAux env plat receipts db (e0 :: rest)
        = (let r := processCurationEvent env plat receipts db e0 noFail
           if r.crashed then (r.db, r.rows, r.trace, true)
           else
             let rr := syncCurationEventsAux env plat receipts r.db rest
             (rr.1, r.rows ++ rr.2.1, r.trace ++ rr.2.2.1, rr.2.2.2)) from rfl] at *
    dsimp only at *
    cases hcr : (processCurationEvent env plat receipts db e0 noFail).crashed
    · simp only [hcr, Bool.false_eq_true, if_false] at hcrash ⊢
      rcases List.mem_cons.mp he with rfl | he2
      · obtain ⟨k, hrows, hidx⟩ := process_rows_key env plat receipts db e noFail
          (hadd e (List.mem_cons_self e rest))
        refine ⟨k, ?_, ?_⟩
        · rw [List.map_append, hrows]
          exact List.mem_append_left _ (List.mem_singleton_self k)
        · exact bcIdx_aux_mono env plat receipts rest _ e.transactionHash k hidx
      · obtain ⟨k, hmem, hidx⟩ := ih (processCurationEvent env plat receipts db e0
            noFail).db (fun x hx => hadd x (List.mem_cons_of_mem e0 hx)) hcrash e he2
        refine ⟨k, ?_, hidx⟩
        rw [List.map_append]
        exact List.mem_append_right _ hmem
    · simp [hcr] at hcrash

/-- C5: processing the same batch of addition events twice leaves exactly
one mirror row per distinct transaction hash in the
`blockchain_curation_event` table: the second pass upserts the rows written
by the first pass instead of inserting duplicates. -/
theorem c5_idempotent_mirroring (env : ChainEnv) (plat : Platform)
    (receipts : List (String × TransactionReceipt)) (db : DB)
    (events : List CurationEvent)
    (hadd : ∀ e ∈ events, e.removed = false)
    (hkey : ∀ k, keyCount db.curationEvents k ≤ 1)
    (h1 : (syncCurationEvents env plat receipts db events).crashed = false)
    (h2 : (syncCurationEvents env plat receipts
        (syncCurationEvents env plat receipts db events).db events).crashed = false) :
    ∀ e ∈ events, ∃ bc,
      (syncCurationEvents env plat receipts
          (syncCurationEvents env plat receipts db events).db
          events).db.findBlockchainTransactionByHash e.transactionHash = some bc
      ∧ keyCount (syncCurationEvents env plat receipts
          (syncCurationEvents env plat receipts db events).db
          events).db.curationEvents bc.id = 1 := by
  intro e he
  have hc1 : (syncCurationEventsAux env plat receipts db events).2.2.2 = false := by
    rw [← crashed_sync_eq]
    exact h1
  obtain ⟨k, hmem, hidx1⟩ := aux_rows_cover env plat receipts events db hadd hc1 e he
  have hdb1 := sync_db_eq env plat receipts db events hc1
  have hinv1 : ∀ k2,
      keyCount (syncCurationEvents env plat receipts db events).db.curationEvents k2
        ≤ 1 := by
    intro k2
    rw [hdb1]
    show keyCount (batchUpsertCurationEvents
      (syncCurationEventsAux env plat receipts db events).1.curationEvents
      (syncCurationEventsAux env plat receipts db events).2.1) k2 ≤ 1
    apply keyCount_batch_le_one
    rw [curationEvents_aux]
    exact hkey k2
  obtain ⟨row, hrow_mem, hrow_key⟩ := List.mem_map.mp hmem
  have hpos1 : 1 ≤ keyCount
      (syncCurationEvents env plat receipts db events).db.curationEvents k := by
    rw [hdb1]
    show 1 ≤ keyCount (batchUpsertCurationEvents
      (syncCurationEventsAux env plat receipts db events).1.curationEvents
      (syncCurationEventsAux env plat receipts db events).2.1) k
    rw [← hrow_key]
    exact keyCount_batch_pos _ _ row hrow_mem
  have hidx1b : bcIdx (syncCurationEvents env plat receipts db events).db
      e.transactionHash = some k := by
    rw [hdb1]
    exact hidx1
  have hc2 : (syncCurationEventsAux env plat receipts
      (syncCurationEvents env plat receipts db events).db events).2.2.2 = false := by
    rw [← crashed_sync_eq]
    exact h2
  have hdb2 := sync_db_eq env plat receipts
    (syncCurationEvents env plat receipts db events).db events hc2
  have hidx2 : bcIdx (syncCurationEvents env plat receipts
      (syncCurationEvents env plat receipts db events).db events).db
      e.transactionHash = some k :=
    bcIdx_sync_mono env plat receipts _ events e.transactionHash k hidx1b
  have hpos2 : 1 ≤ keyCount (syncCurationEvents env plat receipts
      (syncCurationEvents env plat receipts db events).db
      events).db.curationEvents k := by
    rw [hdb2]
    show 1 ≤ keyCount (batchUpsertCurationEvents
      (syncCurationEventsAux env plat receipts
        (syncCurationEvents env plat receipts db events).db events).1.curationEvents
      (syncCurationEventsAux env plat receipts
        (syncCurationEvents env plat receipts db events).db events).2.1) k
    refine le_trans ?_ (keyCount_batch_mono _ _ k)
    rw [curationEvents_aux]
    exact hpos1
  have hle2 : keyCount (syncCurationEvents env plat receipts
      (syncCurationEvents env plat receipts db events).db
      events).db.curationEvents k ≤ 1 := by
    rw [hdb2]
    show keyCount (batchUpsertCurationEvents
      (syncCurationEventsAux env plat receipts
        (syncCurationEvents env plat receipts db events).db events).1.curationEvents
      (syncCurationEventsAux env plat receipts
        (syncCurationEvents env plat receipts db events).db events).2.1) k ≤ 1
    apply keyCount_batch_le_one
    rw [curationEvents_aux]
    exact hinv1 k
  unfold bcIdx at hidx2
  rcases hf : (syncCurationEvents env plat receipts
      (syncCurationEvents env plat receipts db events).db
      events).db.findBlockchainTransactionByHash e.transactionHash with _ | bc
  · rw [hf] at hidx2
    cases hidx2
  · rw [hf] at hidx2
    simp only [Option.map_some', Option.some.injEq] at hidx2
    refine ⟨bc, rfl, ?_⟩
    rw [hidx2]
    exact Nat.le_antisymm hle2 hpos2

/-- C5, witness: the double sync theorem on a concrete two event batch; the
tracked hash keeps exactly one mirror row. -/
theorem c5_witness :
    ∃ bc,
      (syncCurationEvents env0 plat0 []
          (syncCurationEvents env0 plat0 [] db1 [evA, evB]).db
          [evA, evB]).db.findBlockchainTransactionByHash evA.transactionHash = some bc
      ∧ keyCount (syncCurationEvents env0 plat0 []
          (syncCurationEvents env0 plat0 [] db1 [evA, evB]).db
          [evA, evB]).db.curationEvents bc.id = 1 := by
  have h := c5_idempotent_mirroring env0 plat0 [] db1 [evA, evB] (by decide)
    (by intro k; simp [db1, keyCount]) (by decide) (by decide)
  exact h evA (by decide)

end MattersPay
